import Mathlib

/-!
Verification of the RAMCloud request-dispatch core (`src/ServiceManager.cc`).

The development shallowly embeds the dispatch-thread algorithms of
`ServiceManager` (`addService`, `handleRpc`, `poll`) and the worker-side
operations (`Worker::handoff`, `Worker::exit`) as pure functions over an
explicit dispatcher state.  Worker threads run concurrently with the
dispatch thread, but they only ever write their own atomic state cell
(`POLLING`/`WORKING`/`POSTPROCESSING`/`SLEEPING`); their visible effect is
captured by an environment transition that changes one worker's state cell
according to the protocol.  Ghost event logs (replies sent, requests
admitted, requests handed off) record the externally observable actions so
that ordering and exactly-once properties can be stated.
-/

namespace RAMCloud

/-- The four values of a worker's atomic state cell
(declared in `ServiceManager.h`, used throughout `ServiceManager.cc`). -/
inductive WState where
  | POLLING
  | WORKING
  | POSTPROCESSING
  | SLEEPING
deriving DecidableEq, Repr

/-- The two status codes the dispatcher itself writes into error replies
(`STATUS_MESSAGE_TOO_SHORT`, `STATUS_SERVICE_NOT_AVAILABLE`). -/
inductive Status where
  | STATUS_MESSAGE_TOO_SHORT
  | STATUS_SERVICE_NOT_AVAILABLE
deriving DecidableEq, Repr

/-- Modelled from the spec: `MAX_SERVICE` is the largest valid service tag,
declared in the missing `ServiceManager.h`/`Rpc.h`.  The header table in the
spec makes the tag a `uint16` with `> MAX_SERVICE ⇒ reject`; the concrete
value is immaterial to every claim, so it is fixed here. -/
def MAX_SERVICE : Nat := 3

/-- The common RPC request header (`RpcRequestCommon`): a service tag and an
opcode, per the spec's header table. -/
structure RpcRequestCommon where
  service : Nat
  opcode : Nat
deriving DecidableEq, Repr

/-- Modelled from the spec: the size in bytes of `RpcRequestCommon`
(two `uint16` fields). `Buffer::getStart` fails on payloads shorter than
this. -/
def rpcRequestCommonLength : Nat := 4

/-- An incoming server RPC (`Transport::ServerRpc`).  `reqId` models object
identity of the request.  `payloadLength` is the total length of the request
payload; `service`/`opcode` are the header fields that decoding would find at
its start. -/
structure ServerRpc where
  reqId : Nat
  payloadLength : Nat
  service : Nat
  opcode : Nat
  epochSet : Bool
deriving DecidableEq, Repr

/-- Modelled from the spec: `rpc->requestPayload.getStart<RpcRequestCommon>()`
returns NULL when the payload is shorter than the header, otherwise a pointer
to the decoded header (`Buffer::getStart` is declared outside this
repository's sources). -/
def getStart (rpc : ServerRpc) : Option RpcRequestCommon :=
  if rpc.payloadLength < rpcRequestCommonLength then none
  else some ⟨rpc.service, rpc.opcode⟩

/-- Contents of a worker's request slot: either a real RPC or the
`WORKER_EXIT` sentinel (`reinterpret_cast<Transport::ServerRpc*>(1)`); the
slot itself is an `Option` (NULL = `none`). -/
inductive WorkItem where
  | workerExit
  | req (rpc : ServerRpc)
deriving DecidableEq, Repr

/-- The per-worker record (fields of `class Worker` used by
`ServiceManager.cc`): the request slot, the bound service entry (modelled by
its tag), the position in `busyThreads` (−1 when absent), the atomic state
cell and the `exited` flag. -/
structure Worker where
  rpc : Option WorkItem
  serviceInfo : Option Nat
  busyIndex : Int
  state : WState
  exited : Bool
deriving DecidableEq, Repr

/-- A freshly constructed worker (`new Worker(...)`): empty slot, no bound
service, not in `busyThreads`, polling, not exited. -/
def Worker.init : Worker :=
  { rpc := none, serviceInfo := none, busyIndex := -1
    state := WState.POLLING, exited := false }

/-- One registered service's bookkeeping (`ServiceManager::ServiceInfo`):
concurrency cap, number of requests currently running, and the FIFO queue of
waiting requests (front of the list = front of the queue). -/
structure ServiceInfo where
  maxThreads : Nat
  requestsRunning : Nat
  waitingRpcs : List ServerRpc
deriving DecidableEq, Repr

/-- The dispatcher state (`ServiceManager` fields) plus ghost event logs.
`services` is the fixed table indexed by service tag; `busyThreads` and
`idleThreads` hold worker ids indexing `workers`; `testing` models the
`TESTING` build flag.  Ghost fields: `replyLog` records each `sendReply`
invocation (request id, and the error status when the dispatcher itself
synthesised the reply); `admitLog` records (tag, request id) each time a
request is admitted to a service; `handoffLog` records (tag, request id)
each time a real request is handed to a worker. -/
structure SMState where
  services : List (Option ServiceInfo)
  busyThreads : List Nat
  idleThreads : List Nat
  serviceCount : Nat
  testRpcs : List ServerRpc
  workers : List Worker
  testing : Bool
  replyLog : List (Nat × Option Status)
  admitLog : List (Nat × Nat)
  handoffLog : List (Nat × Nat)
deriving DecidableEq, Repr

/-- Read a worker record by id (a dereference of a `Worker*`). -/
def wget (s : SMState) (wid : Nat) : Worker :=
  (s.workers[wid]?).getD Worker.init

/-- Read the service table at a tag (a dereference of `services[tag]`). -/
def sget (s : SMState) (tag : Nat) : Option ServiceInfo :=
  (s.services[tag]?).getD none

/-- The state of a freshly constructed `ServiceManager`. -/
def initState (testing : Bool) : SMState :=
  { services := List.replicate (MAX_SERVICE + 1) none
    busyThreads := []
    idleThreads := []
    serviceCount := 0
    testRpcs := []
    workers := []
    testing := testing
    replyLog := []
    admitLog := []
    handoffLog := [] }

/-- Events performed by `Worker::handoff`, in program order: the plain store
of the request pointer, the release fence (`Fence::leave`), the atomic
exchange of the state cell to `WORKING` recording the previous value, and
the conditional `futexWake` with a wake count. -/
inductive HEvent where
  | storeRpc (item : WorkItem)
  | fenceLeave
  | exchangeState (prev : WState)
  | futexWake (count : Nat)
deriving DecidableEq, Repr

/-- `Worker::handoff` (ServiceManager.cc:369-389): store the request into
the slot, issue a release fence, exchange the state cell to `WORKING`, and
if the previous value was `SLEEPING` issue `futexWake(&state, 1)`.  Returns
the updated worker together with the ordered list of events performed. -/
def Worker.handoff (w : Worker) (newRpc : WorkItem) : Worker × List HEvent :=
  let w1 : Worker := { w with rpc := some newRpc }
  let prevState := w1.state
  let w2 : Worker := { w1 with state := WState.WORKING }
  (w2, [HEvent.storeRpc newRpc, HEvent.fenceLeave, HEvent.exchangeState prevState]
        ++ (if prevState = WState.SLEEPING then [HEvent.futexWake 1] else []))

/-- Dispatcher-level handoff: apply `Worker.handoff` to worker `wid` and
record the (service tag, request id) pair in the ghost handoff log when the
item is a real request.  (`worker->serviceInfo` is always set before any
real handoff.) -/
def smHandoff (s : SMState) (wid : Nat) (item : WorkItem) : SMState :=
  let w := wget s wid
  let w2 := (Worker.handoff w item).1
  { s with
      workers := s.workers.set wid w2
      handoffLog :=
        match item with
        | WorkItem.req r => s.handoffLog ++ [((w.serviceInfo).getD 0, r.reqId)]
        | WorkItem.workerExit => s.handoffLog }

/-- `ServiceManager::addService` (ServiceManager.cc:91-96): asserts the slot
for the tag is unoccupied, constructs the `ServiceInfo` and bumps
`serviceCount`.  A failing assert (occupied slot) and an out-of-range tag
(the fixed table has `MAX_SERVICE + 1` slots, per the spec) are modelled as
`none`. -/
def addService (s : SMState) (maxThreads : Nat) (tag : Nat) : Option SMState :=
  if tag ≤ MAX_SERVICE then
    match sget s tag with
    | some _ => none
    | none =>
        some { s with
                 services := s.services.set tag
                   (some { maxThreads := maxThreads, requestsRunning := 0,
                           waitingRpcs := [] })
                 serviceCount := s.serviceCount + 1 }
  else none

/-- `ServiceManager::handleRpc` (ServiceManager.cc:108-172).  Decode the
header; on a missing header or an out-of-range/unregistered tag either push
onto `testRpcs` (TESTING build with no registered services) or synthesise an
error reply and send it; otherwise admit the request: queue it if the
service is at its concurrency cap, else bump `requestsRunning`, obtain a
worker (pop the back of `idleThreads`, or construct a new one), bind it to
the service, hand off the request, set its `busyIndex` to the current length
of `busyThreads` and append it to `busyThreads`. -/
def handleRpc (s : SMState) (rpc : ServerRpc) : SMState :=
  let header := getStart rpc
  let routed : Bool :=
    match header with
    | none => false
    | some h => decide (h.service ≤ MAX_SERVICE) && (sget s h.service).isSome
  if routed then
    match header with
    | none => s
    | some h =>
      match sget s h.service with
      | none => s
      | some info =>
        if info.maxThreads ≤ info.requestsRunning then
          { s with
              services := s.services.set h.service
                (some { info with waitingRpcs := info.waitingRpcs ++ [rpc] })
              admitLog := s.admitLog ++ [(h.service, rpc.reqId)] }
        else
          let info1 := { info with requestsRunning := info.requestsRunning + 1 }
          let s1 := { s with
                        services := s.services.set h.service (some info1)
                        admitLog := s.admitLog ++ [(h.service, rpc.reqId)] }
          let pick : SMState × Nat :=
            if s1.idleThreads = [] then
              ({ s1 with workers := s1.workers ++ [Worker.init] },
               s1.workers.length)
            else
              ({ s1 with idleThreads := s1.idleThreads.dropLast },
               s1.idleThreads.getLastD 0)
          let s2 := pick.1
          let wid := pick.2
          let s3 := { s2 with
                        workers := s2.workers.set wid
                          { wget s2 wid with serviceInfo := some h.service } }
          let s4 := smHandoff s3 wid (WorkItem.req rpc)
          let s5 := { s4 with
                        workers := s4.workers.set wid
                          { wget s4 wid with
                              busyIndex := Int.ofNat s4.busyThreads.length } }
          { s5 with busyThreads := s5.busyThreads ++ [wid] }
  else
    if s.testing && s.serviceCount == 0 then
      { s with testRpcs := s.testRpcs ++ [rpc] }
    else
      match header with
      | none =>
          { s with replyLog :=
              s.replyLog ++ [(rpc.reqId, some Status.STATUS_MESSAGE_TOO_SHORT)] }
      | some _ =>
          { s with replyLog :=
              s.replyLog ++ [(rpc.reqId, some Status.STATUS_SERVICE_NOT_AVAILABLE)] }

/-- `ServiceManager::idle` (ServiceManager.cc:180-184). -/
def idle (s : SMState) : Bool :=
  s.busyThreads.isEmpty

/-- One iteration of the loop in `ServiceManager::poll`
(ServiceManager.cc:197-233) at index `i` of `busyThreads`:  skip workers
whose state cell reads `WORKING`; otherwise send the pending reply (if any)
and clear the slot; then, unless the state was `POSTPROCESSING`, either hand
the head of the service's waiting queue to this same worker, or remove the
worker from `busyThreads` by swapping the back into its slot, mark it idle
(`busyIndex := -1`, append to `idleThreads`) and decrement the service's
`requestsRunning`.  The iteration is split into `pollReply` (the
"respond now" phase, ServiceManager.cc:206-211) and `pollFinish` (the
pickup-or-release phase, ServiceManager.cc:213-232) with `pollIter` as the
per-worker dispatch on the state read from the cell. -/
def pollReply (s : SMState) (wid : Nat) : SMState :=
  let w := wget s wid
  match w.rpc with
  | some (WorkItem.req r) =>
      { s with
          replyLog := s.replyLog ++ [(r.reqId, none)]
          workers := s.workers.set wid { w with rpc := none } }
  | some WorkItem.workerExit =>
      -- `worker->rpc->sendReply()` on the sentinel would be undefined
      -- behaviour; a worker in `busyThreads` never holds the sentinel.
      { s with workers := s.workers.set wid { w with rpc := none } }
  | none => s

/-- The tail of a `poll` iteration for a worker whose state was read as
neither `WORKING` nor `POSTPROCESSING` (ServiceManager.cc:213-232): hand the
head of the service's waiting queue to this same worker, or release the
worker from `busyThreads` (swap-with-back), push it on `idleThreads` and
decrement the service's `requestsRunning`. -/
def pollFinish (s : SMState) (wid : Nat) : SMState :=
  let w1 := wget s wid
  match w1.serviceInfo with
  | none => s
  | some tag =>
    match sget s tag with
    | none => s
    | some info =>
      match info.waitingRpcs with
      | r :: rest =>
          let s2 := smHandoff s wid (WorkItem.req r)
          { s2 with
              services := s2.services.set tag
                (some { info with waitingRpcs := rest }) }
      | [] =>
          let back := s.busyThreads.getLastD 0
          let s2 :=
            if wid ≠ back then
              { s with
                  busyThreads := s.busyThreads.set w1.busyIndex.toNat back
                  workers := s.workers.set back
                    { wget s back with busyIndex := w1.busyIndex } }
            else s
          { s2 with
              busyThreads := s2.busyThreads.dropLast
              workers := s2.workers.set wid
                { wget s2 wid with busyIndex := -1 }
              idleThreads := s2.idleThreads ++ [wid]
              services := s2.services.set tag
                (some { info with
                          requestsRunning := info.requestsRunning - 1 }) }

def pollIter (s : SMState) (i : Nat) : SMState :=
  match s.busyThreads[i]? with
  | none => s
  | some wid =>
    let st := (wget s wid).state
    if st = WState.WORKING then s
    else
      let s1 := pollReply s wid
      if st = WState.POSTPROCESSING then s1
      else pollFinish s1 wid

/-- The loop of `ServiceManager::poll`: process indices
`fuel-1, fuel-2, …, 0` in that (reverse) order. -/
def pollLoop (s : SMState) : Nat → SMState
  | 0 => s
  | i + 1 => pollLoop (pollIter s i) i

/-- `ServiceManager::poll` (ServiceManager.cc:190-234): iterate over
`busyThreads` from the last index down to 0. -/
def poll (s : SMState) : SMState :=
  pollLoop s s.busyThreads.length

/-- Transcription of the specification's wording for the "respond now"
phase of a `poll` iteration: if the visited worker's request pointer is
non-null, `sendReply` is invoked on that request and the pointer is
cleared (the exit sentinel carries no request, so nothing is logged for
it).  Stated separately from `pollReply` so the two can be compared. -/
def pollReplySpec (s : SMState) (wid : Nat) : SMState :=
  let w := wget s wid
  match w.rpc with
  | none => s
  | some item =>
      { s with
          replyLog := s.replyLog ++
            (match item with
              | WorkItem.req r => [(r.reqId, none)]
              | WorkItem.workerExit => [])
          workers := s.workers.set wid { w with rpc := none } }

/-- Transcription of the specification's wording for the pickup-or-release
phase of a `poll` iteration, to be compared with `pollFinish`: if the
worker's service has a non-empty waiting queue, pop the head and hand it
off to this same worker without returning it to the idle pool; otherwise
remove the worker from `busyThreads` by swapping the last element into its
slot — the specification identifies the slot as the visited index `i` and
the moved worker's new `busyIndex` as `i`, where the code reads both from
the removed worker's own `busyIndex` field and skips the swap when the
worker already sits in the last slot — set its own `busyIndex` to `-1`,
append it to `idleThreads` and decrement the service's `requestsRunning`. -/
def pollFinishSpec (s : SMState) (wid i : Nat) : SMState :=
  match (wget s wid).serviceInfo with
  | none => s
  | some tag =>
    match sget s tag with
    | none => s
    | some info =>
      match info.waitingRpcs with
      | r :: rest =>
          let s2 := smHandoff s wid (WorkItem.req r)
          { s2 with
              services := s2.services.set tag
                (some { info with waitingRpcs := rest }) }
      | [] =>
          let back := s.busyThreads.getLastD 0
          { s with
              busyThreads := (s.busyThreads.set i back).dropLast
              workers := (s.workers.set back
                { wget s back with busyIndex := Int.ofNat i }).set wid
                { wget s wid with busyIndex := -1 }
              idleThreads := s.idleThreads ++ [wid]
              services := s.services.set tag
                (some { info with
                          requestsRunning := info.requestsRunning - 1 }) }

/-- Transcription of the specification's wording for one `poll` iteration
at index `i` of `busyThreads`: skip a `WORKING` worker unchanged; otherwise
respond now, and unless the state is `POSTPROCESSING` run the
pickup-or-release phase on the visited slot. -/
def pollIterSpec (s : SMState) (i : Nat) : SMState :=
  match s.busyThreads[i]? with
  | none => s
  | some wid =>
    let st := (wget s wid).state
    if st = WState.WORKING then s
    else
      let s1 := pollReplySpec s wid
      if st = WState.POSTPROCESSING then s1
      else pollFinishSpec s1 wid i

/-- Transcription of the specification's loop: visit `busyThreads` in
reverse index order (`fuel-1, …, 0`), so that swap-removing the current
entry does not disturb not-yet-visited entries. -/
def pollLoopSpec (s : SMState) : Nat → SMState
  | 0 => s
  | i + 1 => pollLoopSpec (pollIterSpec s i) i

/-- The specification's description of `ServiceManager::poll` as a whole. -/
def pollSpec (s : SMState) : SMState :=
  pollLoopSpec s s.busyThreads.length

/-- `Worker::exit` (ServiceManager.cc:334-358), modelled at the point where
its wait loop (`while (busyIndex >= 0) dispatch.poll();`) has terminated:
if the worker has already exited, return immediately with no change;
otherwise hand off the `WORKER_EXIT` sentinel, join the thread, clear the
request pointer and set the `exited` flag. -/
def workerExitOp (s : SMState) (wid : Nat) : SMState :=
  if (wget s wid).exited then s
  else
    let s1 := smHandoff s wid WorkItem.workerExit
    { s1 with
        workers := s1.workers.set wid
          { wget s1 wid with rpc := none, exited := true } }

/-! ### Derived quantities (ownership counts, per-service views) -/

/-- How many times request id `id` sits in the waiting queue of one service
table slot. -/
def qCount (o : Option ServiceInfo) (id : Nat) : Nat :=
  match o with
  | some info => info.waitingRpcs.countP (fun r => r.reqId == id)
  | none => 0

/-- How many times request id `id` sits in some service's waiting queue. -/
def queuesCount (services : List (Option ServiceInfo)) (id : Nat) : Nat :=
  (services.map (fun o => qCount o id)).sum

/-- Whether worker `w`'s request slot holds request id `id`. -/
def slotCount (w : Worker) (id : Nat) : Nat :=
  match w.rpc with
  | some (WorkItem.req r) => if r.reqId = id then 1 else 0
  | _ => 0

/-- How many worker request slots hold request id `id`. -/
def slotsCount (workers : List Worker) (id : Nat) : Nat :=
  (workers.map (fun w => slotCount w id)).sum

/-- How many times request id `id` sits in the test queue. -/
def testCount (testRpcs : List ServerRpc) (id : Nat) : Nat :=
  testRpcs.countP (fun r => r.reqId == id)

/-- How many `sendReply` invocations have been recorded for id `id`. -/
def replyCount (replyLog : List (Nat × Option Status)) (id : Nat) : Nat :=
  replyLog.countP (fun p => p.1 == id)

/-- Occurrences of id `id` in the places a routed request can live:
a waiting queue, a worker slot, or (after completion) the reply log. -/
def liveOcc (s : SMState) (id : Nat) : Nat :=
  queuesCount s.services id + slotsCount s.workers id + replyCount s.replyLog id

/-- All occurrences of id `id` owned by the dispatcher (including the
test-only queue). -/
def occ (s : SMState) (id : Nat) : Nat :=
  liveOcc s id + testCount s.testRpcs id

/-- The request ids recorded for service `tag` in a ghost log, oldest
first. -/
def logFor (log : List (Nat × Nat)) (tag : Nat) : List Nat :=
  (log.filter (fun q => q.1 == tag)).map Prod.snd

/-- Request ids currently waiting in service `tag`'s queue, front first. -/
def queueIds (services : List (Option ServiceInfo)) (tag : Nat) : List Nat :=
  match (services[tag]?).getD none with
  | some info => info.waitingRpcs.map ServerRpc.reqId
  | none => []

/-- Number of busy workers currently bound to service `tag`. -/
def boundCount (busy : List Nat) (workers : List Worker) (tag : Nat) : Nat :=
  busy.countP
    (fun wid => ((workers[wid]?).getD Worker.init).serviceInfo == some tag)

/-! ### The transition system -/

/-- Overwrite worker `wid`'s atomic state cell with `t` (the only field of
the shared state a worker thread ever writes). -/
def setWorkerState (s : SMState) (wid : Nat) (t : WState) : SMState :=
  { s with workers := s.workers.set wid { wget s wid with state := t } }

/-- The state-cell stores a worker thread may perform concurrently with the
dispatch thread (`workerMain` and `Worker::sendReply`): finish a handler
(`WORKING → POLLING`), signal an early reply (`WORKING → POSTPROCESSING`),
finish after an early reply (`POSTPROCESSING → POLLING`), or go to sleep
after the poll budget expires (`POLLING → SLEEPING`). -/
inductive WorkerTransition : WState → WState → Prop where
  | finish : WorkerTransition WState.WORKING WState.POLLING
  | earlyReply : WorkerTransition WState.WORKING WState.POSTPROCESSING
  | finishPost : WorkerTransition WState.POSTPROCESSING WState.POLLING
  | sleep : WorkerTransition WState.POLLING WState.SLEEPING

/-- One step of the system: a service registration, a transport delivering a
fresh fully-formed request (`handleRpc` requires the epoch to be set, and a
live request object is distinct from every other request the dispatcher
knows), a tick of the dispatch loop (`poll`), or a worker thread's own
state-cell store. -/
inductive Step : SMState → SMState → Prop where
  | addSvc (s : SMState) (maxThreads tag : Nat) (s' : SMState) :
      addService s maxThreads tag = some s' → Step s s'
  | handle (s : SMState) (rpc : ServerRpc) :
      rpc.epochSet = true → occ s rpc.reqId = 0 → Step s (handleRpc s rpc)
  | pollTick (s : SMState) : Step s (poll s)
  | workerStep (s : SMState) (wid : Nat) (t : WState) :
      WorkerTransition (wget s wid).state t → Step s (setWorkerState s wid t)

/-- States reachable from a freshly constructed `ServiceManager`. -/
def Reachable (s : SMState) : Prop :=
  ∃ b, Relation.ReflTransGen Step (initState b) s

/-! ### The global invariant -/

/-- The dispatcher's global invariant, maintained by every step. -/
structure Inv (s : SMState) : Prop where
  busyNodup : s.busyThreads.Nodup
  idleNodup : s.idleThreads.Nodup
  busyLt : ∀ wid ∈ s.busyThreads, wid < s.workers.length
  idleLt : ∀ wid ∈ s.idleThreads, wid < s.workers.length
  disj : ∀ wid ∈ s.busyThreads, wid ∉ s.idleThreads
  busyIdx : ∀ i (h : i < s.busyThreads.length),
    (wget s s.busyThreads[i]).busyIndex = Int.ofNat i
  notBusyIdx : ∀ wid, wid ∉ s.busyThreads → (wget s wid).busyIndex = -1
  idleRpc : ∀ wid ∈ s.idleThreads, (wget s wid).rpc = none
  busySvc : ∀ wid ∈ s.busyThreads,
    ∃ tag info, (wget s wid).serviceInfo = some tag ∧ sget s tag = some info
  counts : ∀ tag info, sget s tag = some info →
    info.requestsRunning = boundCount s.busyThreads s.workers tag
  capped : ∀ tag info, sget s tag = some info →
    info.requestsRunning ≤ info.maxThreads
  queueFull : ∀ tag info, sget s tag = some info → info.waitingRpcs ≠ [] →
    info.requestsRunning = info.maxThreads
  svcLen : s.services.length = MAX_SERVICE + 1
  own : ∀ id, occ s id ≤ 1
  admitLive : ∀ p ∈ s.admitLog, 1 ≤ liveOcc s p.2
  fifo : ∀ tag, logFor s.handoffLog tag ++ queueIds s.services tag =
    logFor s.admitLog tag

/-! ### List helper lemmas -/

lemma getD_set_self {α : Type _} (l : List α) (i : Nat) (a d : α)
    (h : i < l.length) : ((l.set i a)[i]?).getD d = a := by
  simp [List.getElem?_set, h]

lemma getD_set_ne {α : Type _} (l : List α) {i j : Nat} (a d : α)
    (h : i ≠ j) : ((l.set i a)[j]?).getD d = (l[j]?).getD d := by
  simp [List.getElem?_set, h]

lemma getD_append_left {α : Type _} (l l' : List α) (i : Nat) (d : α)
    (h : i < l.length) : ((l ++ l')[i]?).getD d = (l[i]?).getD d := by
  simp [List.getElem?_append_left h]

lemma getD_concat_length {α : Type _} (l : List α) (a d : α) :
    ((l ++ [a])[l.length]?).getD d = a := by
  simp [List.getElem?_concat_length]

lemma getD_eq_default {α : Type _} (l : List α) (i : Nat) (d : α)
    (h : l.length ≤ i) : (l[i]?).getD d = d := by
  simp [List.getElem?_eq_none h]

lemma getDq_eq_getElem {α : Type _} (l : List α) (d : α) {i : Nat}
    (h : i < l.length) : (l[i]?).getD d = l[i] := by
  rw [List.getElem?_eq_getElem h]
  rfl

lemma set_concat_length {α : Type _} (l : List α) (a b : α) :
    (l ++ [a]).set l.length b = l ++ [b] := by
  induction l with
  | nil => rfl
  | cons x xs ih => simp [List.set, ih]

lemma sum_set_add (l : List Nat) (i : Nat) (a : Nat) (h : i < l.length) :
    (l.set i a).sum + l[i] = l.sum + a := by
  induction l generalizing i with
  | nil => simp at h
  | cons x xs ih =>
    cases i with
    | zero => simp [List.set]; omega
    | succ n =>
      simp only [List.set, List.sum_cons, List.getElem_cons_succ]
      have := ih n (by simpa using Nat.lt_of_succ_lt_succ h)
      omega

lemma countP_le_one_ite {α : Type _} (p : α → Bool) (l : List α) (i : Nat)
    (h : i < l.length) : (if p l[i] then 1 else 0) ≤ l.countP p := by
  split
  · have : 0 < l.countP p :=
      List.countP_pos_iff.mpr ⟨l[i], List.getElem_mem h, by assumption⟩
    omega
  · omega

lemma countP_set_add {α : Type _} (p : α → Bool) (l : List α) (i : Nat)
    (a : α) (h : i < l.length) :
    (l.set i a).countP p + (if p l[i] then 1 else 0) =
      l.countP p + (if p a then 1 else 0) := by
  have hx := countP_le_one_ite p l i h
  rw [List.countP_set p l i a h]
  omega

lemma dropLast_concat_getLastD {α : Type _} (l : List α) (d : α)
    (h : l ≠ []) : l.dropLast ++ [l.getLastD d] = l := by
  rw [List.getLastD_eq_getLast?, List.getLast?_eq_getLast l h]
  simp
  exact List.dropLast_concat_getLast h

lemma getLastD_mem {α : Type _} (l : List α) (d : α) (h : l ≠ []) :
    l.getLastD d ∈ l := by
  rw [List.getLastD_eq_getLast?, List.getLast?_eq_getLast l h]
  simp

lemma getLastD_eq_getElem {α : Type _} (l : List α) (d : α) (h : l ≠ [])
    (h2 : l.length - 1 < l.length) :
    l.getLastD d = l[l.length - 1] := by
  rw [List.getLastD_eq_getLast?, List.getLast?_eq_getLast l h]
  simp [List.getLast_eq_getElem]

/-! ### Shape lemmas for `handleRpc` -/

/-- A request is "unroutable" when its header is missing, its tag is out of
range, or no service is registered at the tag. -/
def Unroutable (s : SMState) (rpc : ServerRpc) : Prop :=
  getStart rpc = none ∨
    ∃ hd, getStart rpc = some hd ∧
      (MAX_SERVICE < hd.service ∨ sget s hd.service = none)

lemma handleRpc_test (s : SMState) (rpc : ServerRpc)
    (hu : Unroutable s rpc) (ht : s.testing = true) (hc : s.serviceCount = 0) :
    handleRpc s rpc = { s with testRpcs := s.testRpcs ++ [rpc] } := by
  rcases hu with hh | ⟨hd, hh, hbad⟩
  · simp [handleRpc, hh, ht, hc]
  · rcases hbad with hlt | hnone
    · simp [handleRpc, hh, ht, hc, Nat.not_le_of_lt hlt]
    · simp [handleRpc, hh, ht, hc, hnone]

lemma handleRpc_tooShort (s : SMState) (rpc : ServerRpc)
    (hh : getStart rpc = none)
    (ht : s.testing = false ∨ s.serviceCount ≠ 0) :
    handleRpc s rpc =
      { s with replyLog :=
          s.replyLog ++ [(rpc.reqId, some Status.STATUS_MESSAGE_TOO_SHORT)] } := by
  rcases ht with ht | ht <;> simp [handleRpc, hh, ht]

lemma handleRpc_notAvail (s : SMState) (rpc : ServerRpc) (hd : RpcRequestCommon)
    (hh : getStart rpc = some hd)
    (hbad : MAX_SERVICE < hd.service ∨ sget s hd.service = none)
    (ht : s.testing = false ∨ s.serviceCount ≠ 0) :
    handleRpc s rpc =
      { s with replyLog :=
          s.replyLog ++ [(rpc.reqId, some Status.STATUS_SERVICE_NOT_AVAILABLE)] } := by
  rcases hbad with hlt | hnone
  · rcases ht with ht | ht <;> simp [handleRpc, hh, ht, Nat.not_le_of_lt hlt]
  · rcases ht with ht | ht <;> simp [handleRpc, hh, ht, hnone]

lemma handleRpc_queue (s : SMState) (rpc : ServerRpc) (hd : RpcRequestCommon)
    (info : ServiceInfo)
    (hh : getStart rpc = some hd) (hle : hd.service ≤ MAX_SERVICE)
    (hs : sget s hd.service = some info)
    (hcap : info.maxThreads ≤ info.requestsRunning) :
    handleRpc s rpc =
      { s with
          services := s.services.set hd.service
            (some { info with waitingRpcs := info.waitingRpcs ++ [rpc] })
          admitLog := s.admitLog ++ [(hd.service, rpc.reqId)] } := by
  simp [handleRpc, hh, hle, hs, hcap]

lemma handleRpc_admit_new (s : SMState) (rpc : ServerRpc)
    (hd : RpcRequestCommon) (info : ServiceInfo)
    (hh : getStart rpc = some hd) (hle : hd.service ≤ MAX_SERVICE)
    (hs : sget s hd.service = some info)
    (hcap : info.requestsRunning < info.maxThreads)
    (hidle : s.idleThreads = []) :
    handleRpc s rpc =
      { s with
          services := s.services.set hd.service
            (some { info with requestsRunning := info.requestsRunning + 1 })
          admitLog := s.admitLog ++ [(hd.service, rpc.reqId)]
          workers := s.workers ++
            [{ rpc := some (WorkItem.req rpc), serviceInfo := some hd.service
               busyIndex := Int.ofNat s.busyThreads.length
               state := WState.WORKING, exited := false }]
          handoffLog := s.handoffLog ++ [(hd.service, rpc.reqId)]
          busyThreads := s.busyThreads ++ [s.workers.length] } := by
  simp only [handleRpc, hh, hle, hs, Not.elim, decide_True, Bool.true_and,
    Option.isSome_some, if_true, Nat.not_le_of_lt hcap, if_false, hidle,
    if_pos rfl]
  simp only [smHandoff, wget, Worker.handoff, getD_concat_length,
    List.set_set, set_concat_length]
  simp [getD_concat_length, Worker.init]

lemma handleRpc_admit_pop (s : SMState) (rpc : ServerRpc)
    (hd : RpcRequestCommon) (info : ServiceInfo)
    (hh : getStart rpc = some hd) (hle : hd.service ≤ MAX_SERVICE)
    (hs : sget s hd.service = some info)
    (hcap : info.requestsRunning < info.maxThreads)
    (hidle : s.idleThreads ≠ [])
    (hlt : s.idleThreads.getLastD 0 < s.workers.length) :
    handleRpc s rpc =
      { s with
          services := s.services.set hd.service
            (some { info with requestsRunning := info.requestsRunning + 1 })
          admitLog := s.admitLog ++ [(hd.service, rpc.reqId)]
          idleThreads := s.idleThreads.dropLast
          workers := s.workers.set (s.idleThreads.getLastD 0)
            { wget s (s.idleThreads.getLastD 0) with
                serviceInfo := some hd.service
                rpc := some (WorkItem.req rpc)
                state := WState.WORKING
                busyIndex := Int.ofNat s.busyThreads.length }
          handoffLog := s.handoffLog ++ [(hd.service, rpc.reqId)]
          busyThreads := s.busyThreads ++ [s.idleThreads.getLastD 0] } := by
  simp only [handleRpc, hh, hle, hs, decide_True, Bool.true_and,
    Option.isSome_some, if_true, Nat.not_le_of_lt hcap, if_false, hidle,
    if_neg hidle]
  simp only [smHandoff, wget, Worker.handoff, List.set_set,
    getD_set_self _ _ _ _ hlt]
  simp [getD_set_self _ _ _ _ hlt]

lemma set_getElem_self {α : Type _} (l : List α) (i : Nat)
    (h : i < l.length) : l.set i l[i] = l := by
  induction l generalizing i with
  | nil => simp at h
  | cons x xs ih =>
    cases i with
    | zero => simp
    | succ n => simp [ih n (by simpa using Nat.lt_of_succ_lt_succ h)]

/-! ### Shape lemmas for `pollReply`, `pollFinish` and `pollIter` -/

lemma pollReply_req (s : SMState) (wid : Nat) (r : ServerRpc)
    (hslot : (wget s wid).rpc = some (WorkItem.req r)) :
    pollReply s wid =
      { s with
          replyLog := s.replyLog ++ [(r.reqId, none)]
          workers := s.workers.set wid { wget s wid with rpc := none } } := by
  simp [pollReply, hslot]

lemma pollReply_sentinel (s : SMState) (wid : Nat)
    (hslot : (wget s wid).rpc = some WorkItem.workerExit) :
    pollReply s wid =
      { s with workers := s.workers.set wid { wget s wid with rpc := none } } := by
  simp [pollReply, hslot]

lemma pollReply_none (s : SMState) (wid : Nat)
    (hslot : (wget s wid).rpc = none) :
    pollReply s wid = s := by
  simp [pollReply, hslot]

lemma pollIter_oob (s : SMState) (i : Nat)
    (hbt : s.busyThreads[i]? = none) : pollIter s i = s := by
  simp [pollIter, hbt]

lemma pollIter_working (s : SMState) (i : Nat) (wid : Nat)
    (hbt : s.busyThreads[i]? = some wid)
    (hst : (wget s wid).state = WState.WORKING) :
    pollIter s i = s := by
  simp [pollIter, hbt, hst]

lemma pollIter_post (s : SMState) (i : Nat) (wid : Nat)
    (hbt : s.busyThreads[i]? = some wid)
    (hst : (wget s wid).state = WState.POSTPROCESSING) :
    pollIter s i = pollReply s wid := by
  simp [pollIter, hbt, hst]

lemma pollIter_active (s : SMState) (i : Nat) (wid : Nat)
    (hbt : s.busyThreads[i]? = some wid)
    (h1 : (wget s wid).state ≠ WState.WORKING)
    (h2 : (wget s wid).state ≠ WState.POSTPROCESSING) :
    pollIter s i = pollFinish (pollReply s wid) wid := by
  simp [pollIter, hbt, h1, h2]

lemma pollFinish_pickup (s : SMState) (wid tag : Nat) (info : ServiceInfo)
    (r : ServerRpc) (rest : List ServerRpc)
    (htag : (wget s wid).serviceInfo = some tag)
    (hs : sget s tag = some info)
    (hq : info.waitingRpcs = r :: rest) :
    pollFinish s wid =
      { s with
          workers := s.workers.set wid
            { wget s wid with rpc := some (WorkItem.req r)
                              state := WState.WORKING }
          handoffLog := s.handoffLog ++ [(tag, r.reqId)]
          services := s.services.set tag
            (some { info with waitingRpcs := rest }) } := by
  simp [pollFinish, htag, hs, hq, smHandoff, Worker.handoff]

lemma pollFinish_release_last (s : SMState) (wid tag : Nat)
    (info : ServiceInfo)
    (htag : (wget s wid).serviceInfo = some tag)
    (hs : sget s tag = some info)
    (hq : info.waitingRpcs = [])
    (hback : wid = s.busyThreads.getLastD 0) :
    pollFinish s wid =
      { s with
          busyThreads := s.busyThreads.dropLast
          workers := s.workers.set wid { wget s wid with busyIndex := -1 }
          idleThreads := s.idleThreads ++ [wid]
          services := s.services.set tag
            (some { info with
                      requestsRunning := info.requestsRunning - 1 }) } := by
  subst hback
  simp [wget] at htag
  simp [pollFinish, wget, hs, hq, htag]

lemma pollFinish_release_swap (s : SMState) (wid tag : Nat)
    (info : ServiceInfo)
    (htag : (wget s wid).serviceInfo = some tag)
    (hs : sget s tag = some info)
    (hq : info.waitingRpcs = [])
    (hne : wid ≠ s.busyThreads.getLastD 0) :
    pollFinish s wid =
      { s with
          busyThreads := (s.busyThreads.set (wget s wid).busyIndex.toNat
            (s.busyThreads.getLastD 0)).dropLast
          workers := (s.workers.set (s.busyThreads.getLastD 0)
            { wget s (s.busyThreads.getLastD 0) with
                busyIndex := (wget s wid).busyIndex }).set wid
            { wget s wid with busyIndex := -1 }
          idleThreads := s.idleThreads ++ [wid]
          services := s.services.set tag
            (some { info with
                      requestsRunning := info.requestsRunning - 1 }) } := by
  have hne2 : s.busyThreads.getLastD 0 ≠ wid := Ne.symm hne
  simp [wget] at htag
  rw [List.getLastD_eq_getLast?] at hne hne2
  simp [pollFinish, wget, hs, hq, hne, hne2, htag, List.getElem?_set]

/-! ### Counting infrastructure -/

lemma mapSum_set {α : Type _} (f : α → Nat) (l : List α) (i : Nat) (a : α)
    (h : i < l.length) :
    ((l.set i a).map f).sum + f l[i] = (l.map f).sum + f a := by
  rw [List.map_set]
  have h2 : i < (l.map f).length := by simpa using h
  have h3 := sum_set_add (l.map f) i (f a) h2
  simpa using h3

lemma slotCount_rpc (w w' : Worker) (id : Nat) (h : w'.rpc = w.rpc) :
    slotCount w' id = slotCount w id := by
  simp [slotCount, h]

lemma slotsCount_set (workers : List Worker) (wid : Nat) (w' : Worker)
    (h : wid < workers.length) (id : Nat) :
    slotsCount (workers.set wid w') id +
      slotCount ((workers[wid]?).getD Worker.init) id =
      slotsCount workers id + slotCount w' id := by
  have h3 := mapSum_set (fun w => slotCount w id) workers wid w' h
  rw [getDq_eq_getElem _ _ h]
  exact h3

lemma slotsCount_set_stable (workers : List Worker) (wid : Nat) (w' : Worker)
    (hrpc : w'.rpc = ((workers[wid]?).getD Worker.init).rpc) (id : Nat) :
    slotsCount (workers.set wid w') id = slotsCount workers id := by
  by_cases h : wid < workers.length
  · have h2 := slotsCount_set workers wid w' h id
    have h3 : slotCount w' id =
        slotCount ((workers[wid]?).getD Worker.init) id :=
      slotCount_rpc _ _ _ hrpc
    omega
  · rw [List.set_eq_of_length_le (Nat.le_of_not_lt h)]

lemma slotsCount_concat (workers : List Worker) (w : Worker) (id : Nat) :
    slotsCount (workers ++ [w]) id = slotsCount workers id + slotCount w id := by
  simp [slotsCount]

lemma queuesCount_set (services : List (Option ServiceInfo)) (tag : Nat)
    (o' : Option ServiceInfo) (h : tag < services.length) (id : Nat) :
    queuesCount (services.set tag o') id +
      qCount ((services[tag]?).getD none) id =
      queuesCount services id + qCount o' id := by
  have h3 := mapSum_set (fun o => qCount o id) services tag o' h
  rw [getDq_eq_getElem _ _ h]
  exact h3

lemma replyCount_append (log : List (Nat × Option Status)) (i : Nat)
    (st : Option Status) (id : Nat) :
    replyCount (log ++ [(i, st)]) id =
      replyCount log id + (if i = id then 1 else 0) := by
  by_cases h : i = id <;> simp [replyCount, List.countP_append, h]

lemma testCount_append (l : List ServerRpc) (r : ServerRpc) (id : Nat) :
    testCount (l ++ [r]) id =
      testCount l id + (if r.reqId = id then 1 else 0) := by
  by_cases h : r.reqId = id <;> simp [testCount, List.countP_append, h]

lemma qCount_append (info : ServiceInfo) (r : ServerRpc) (id : Nat) :
    qCount (some { info with waitingRpcs := info.waitingRpcs ++ [r] }) id =
      qCount (some info) id + (if r.reqId = id then 1 else 0) := by
  by_cases h : r.reqId = id <;> simp [qCount, List.countP_append, h]

lemma logFor_append (log : List (Nat × Nat)) (p : Nat × Nat) (tag : Nat) :
    logFor (log ++ [p]) tag =
      logFor log tag ++ (if p.1 = tag then [p.2] else []) := by
  by_cases h : p.1 = tag <;> simp [logFor, List.filter_append, h]

lemma boundCount_congr (busy : List Nat) (workers workers' : List Worker)
    (h : ∀ wid ∈ busy, ((workers'[wid]?).getD Worker.init).serviceInfo =
      ((workers[wid]?).getD Worker.init).serviceInfo) (tag : Nat) :
    boundCount busy workers' tag = boundCount busy workers tag :=
  List.countP_congr (fun wid hw => by simp [h wid hw])

lemma boundCount_concat (busy : List Nat) (workers : List Worker)
    (wid : Nat) (tag : Nat) :
    boundCount (busy ++ [wid]) workers tag =
      boundCount busy workers tag +
      (if ((workers[wid]?).getD Worker.init).serviceInfo = some tag
        then 1 else 0) := by
  rw [boundCount, boundCount, List.countP_append]
  congr 1
  by_cases h : ((workers[wid]?).getD Worker.init).serviceInfo = some tag <;>
    simp [List.countP_cons, h]

/-! ### The invariant holds initially -/

lemma sget_init (b : Bool) (tag : Nat) : sget (initState b) tag = none := by
  simp only [sget, initState, List.getElem?_replicate]
  split <;> rfl

lemma inv_initState (b : Bool) : Inv (initState b) := by
  constructor
  case busyNodup => simp [initState]
  case idleNodup => simp [initState]
  case busyLt => intro wid hw; simp [initState] at hw
  case idleLt => intro wid hw; simp [initState] at hw
  case disj => intro wid hw; simp [initState] at hw
  case busyIdx => intro i h; simp [initState] at h
  case notBusyIdx => intro wid _; rfl
  case idleRpc => intro wid hw; simp [initState] at hw
  case busySvc => intro wid hw; simp [initState] at hw
  case counts => intro tag info h; rw [sget_init] at h; exact absurd h (by simp)
  case capped => intro tag info h; rw [sget_init] at h; exact absurd h (by simp)
  case queueFull =>
    intro tag info h; rw [sget_init] at h; exact absurd h (by simp)
  case svcLen => simp [initState]
  case own => intro id; simp [occ, liveOcc, initState, queuesCount,
    slotsCount, replyCount, testCount, qCount]
  case admitLive => intro p hp; simp [initState] at hp
  case fifo =>
    intro tag
    have hq : queueIds (List.replicate (MAX_SERVICE + 1) none) tag = [] := by
      simp only [queueIds, List.getElem?_replicate]
      split
      next heq => split at heq <;> simp at heq
      next => rfl
    simp [initState, logFor, hq]

/-! ### Preservation: worker state stores -/

lemma getDW_set (workers : List Worker) (wid : Nat) (w' : Worker)
    (wid' : Nat) :
    (((workers.set wid w')[wid']?).getD Worker.init) =
      if wid = wid' ∧ wid < workers.length then w'
      else (workers[wid']?).getD Worker.init := by
  by_cases h1 : wid = wid'
  · subst h1
    by_cases h2 : wid < workers.length
    · simp [List.getElem?_set, h2]
    · simp [List.getElem?_set, h2,
        List.getElem?_eq_none (Nat.le_of_not_lt h2)]
  · simp [List.getElem?_set, h1]

lemma wget_setWorkerState (s : SMState) (wid : Nat) (t : WState)
    (wid' : Nat) :
    wget (setWorkerState s wid t) wid' =
      if wid = wid' ∧ wid < s.workers.length
      then { wget s wid with state := t } else wget s wid' := by
  simp only [setWorkerState, wget, getDW_set]

lemma inv_setWorkerState (s : SMState) (wid : Nat) (t : WState)
    (hI : Inv s) : Inv (setWorkerState s wid t) := by
  have hsvc : ∀ wid', (wget (setWorkerState s wid t) wid').serviceInfo =
      (wget s wid').serviceInfo := by
    intro wid'; rw [wget_setWorkerState]; split
    · next hc => simp only; rw [hc.1]
    · rfl
  have hbi : ∀ wid', (wget (setWorkerState s wid t) wid').busyIndex =
      (wget s wid').busyIndex := by
    intro wid'; rw [wget_setWorkerState]; split
    · next hc => simp only; rw [hc.1]
    · rfl
  have hrpc : ∀ wid', (wget (setWorkerState s wid t) wid').rpc =
      (wget s wid').rpc := by
    intro wid'; rw [wget_setWorkerState]; split
    · next hc => simp only; rw [hc.1]
    · rfl
  have hbc : ∀ tag, boundCount s.busyThreads
      (s.workers.set wid { wget s wid with state := t }) tag =
      boundCount s.busyThreads s.workers tag := by
    intro tag
    refine boundCount_congr _ _ _ (fun wid' _ => ?_) tag
    have h3 := hsvc wid'
    simpa [setWorkerState, wget] using h3
  have hsc : ∀ id, slotsCount
      (s.workers.set wid { wget s wid with state := t }) id =
      slotsCount s.workers id := fun id =>
    slotsCount_set_stable s.workers wid { wget s wid with state := t } rfl id
  constructor
  case busyNodup => exact hI.busyNodup
  case idleNodup => exact hI.idleNodup
  case busyLt =>
    intro w hw
    simpa [setWorkerState] using hI.busyLt w hw
  case idleLt =>
    intro w hw
    simpa [setWorkerState] using hI.idleLt w hw
  case disj => exact hI.disj
  case busyIdx =>
    intro i h
    rw [hbi]
    exact hI.busyIdx i h
  case notBusyIdx =>
    intro w hw
    rw [hbi]
    exact hI.notBusyIdx w hw
  case idleRpc =>
    intro w hw
    rw [hrpc]
    exact hI.idleRpc w hw
  case busySvc =>
    intro w hw
    rw [hsvc]
    exact hI.busySvc w hw
  case counts =>
    intro tag info h
    have h2 : sget s tag = some info := h
    have h3 := hI.counts tag info h2
    show info.requestsRunning = boundCount s.busyThreads
      (s.workers.set wid { wget s wid with state := t }) tag
    rw [hbc tag]
    exact h3
  case capped => exact hI.capped
  case queueFull => exact hI.queueFull
  case svcLen => exact hI.svcLen
  case own =>
    intro id
    show queuesCount s.services id +
      slotsCount (s.workers.set wid { wget s wid with state := t }) id +
      replyCount s.replyLog id + testCount s.testRpcs id ≤ 1
    rw [hsc id]
    exact hI.own id
  case admitLive =>
    intro p hp
    have hp2 : p ∈ s.admitLog := hp
    have h3 := hI.admitLive p hp2
    show 1 ≤ queuesCount s.services p.2 +
      slotsCount (s.workers.set wid { wget s wid with state := t }) p.2 +
      replyCount s.replyLog p.2
    rw [hsc p.2]
    exact h3
  case fifo => exact hI.fifo

/-! ### Preservation: service registration -/

lemma addService_some (s : SMState) (mt tag : Nat) (s' : SMState)
    (h : addService s mt tag = some s') :
    tag ≤ MAX_SERVICE ∧ sget s tag = none ∧
      s' = { s with
               services := s.services.set tag
                 (some { maxThreads := mt, requestsRunning := 0,
                         waitingRpcs := [] })
               serviceCount := s.serviceCount + 1 } := by
  unfold addService at h
  split at h
  · split at h
    · exact absurd h (by simp)
    · next hnone =>
        refine ⟨by assumption, hnone, ?_⟩
        injection h with h2
        exact h2.symm
  · exact absurd h (by simp)

lemma inv_addService (s : SMState) (mt tag : Nat) (s' : SMState)
    (h : addService s mt tag = some s') (hI : Inv s) : Inv s' := by
  obtain ⟨hle, hnone, rfl⟩ := addService_some s mt tag s' h
  have hlt : tag < s.services.length := by rw [hI.svcLen]; omega
  have hnotBound : ∀ wid ∈ s.busyThreads,
      ¬ (wget s wid).serviceInfo = some tag := by
    intro wid hw hcontra
    obtain ⟨t3, info3, hsi, hs3⟩ := hI.busySvc wid hw
    rw [hcontra] at hsi
    injection hsi with h4
    rw [← h4] at hs3
    rw [hnone] at hs3
    exact absurd hs3 (by simp)
  constructor
  case busyNodup => exact hI.busyNodup
  case idleNodup => exact hI.idleNodup
  case busyLt => exact hI.busyLt
  case idleLt => exact hI.idleLt
  case disj => exact hI.disj
  case busyIdx => exact hI.busyIdx
  case notBusyIdx => exact hI.notBusyIdx
  case idleRpc => exact hI.idleRpc
  case busySvc =>
    intro w hw
    obtain ⟨t2, info, h1, h2⟩ := hI.busySvc w hw
    refine ⟨t2, info, h1, ?_⟩
    by_cases he : tag = t2
    · subst he
      rw [h2] at hnone
      exact absurd hnone (by simp)
    · show ((s.services.set tag _)[t2]?).getD none = some info
      rw [getD_set_ne _ _ _ he]
      exact h2
  case counts =>
    intro t2 info h2
    by_cases he : tag = t2
    · subst he
      have h5 : some (⟨mt, 0, []⟩ : ServiceInfo) = some info := by
        rw [← h2]
        exact (getD_set_self _ _ _ _ hlt).symm
      injection h5 with h6
      subst h6
      show (0 : Nat) = boundCount s.busyThreads s.workers tag
      symm
      rw [boundCount, List.countP_eq_zero]
      intro wid hw
      simpa using hnotBound wid hw
    · have h4 : sget s t2 = some info := by
        have h5 : ((s.services.set tag _)[t2]?).getD none = some info := h2
        rw [getD_set_ne _ _ _ he] at h5
        exact h5
      exact hI.counts t2 info h4
  case capped =>
    intro t2 info h2
    by_cases he : tag = t2
    · subst he
      have h5 : some (⟨mt, 0, []⟩ : ServiceInfo) = some info := by
        rw [← h2]
        exact (getD_set_self _ _ _ _ hlt).symm
      injection h5 with h6
      subst h6
      exact Nat.zero_le _
    · have h4 : sget s t2 = some info := by
        have h5 : ((s.services.set tag _)[t2]?).getD none = some info := h2
        rw [getD_set_ne _ _ _ he] at h5
        exact h5
      exact hI.capped t2 info h4
  case queueFull =>
    intro t2 info h2 hne
    by_cases he : tag = t2
    · subst he
      have h5 : some (⟨mt, 0, []⟩ : ServiceInfo) = some info := by
        rw [← h2]
        exact (getD_set_self _ _ _ _ hlt).symm
      injection h5 with h6
      subst h6
      exact absurd rfl hne
    · have h4 : sget s t2 = some info := by
        have h5 : ((s.services.set tag _)[t2]?).getD none = some info := h2
        rw [getD_set_ne _ _ _ he] at h5
        exact h5
      exact hI.queueFull t2 info h4 hne
  case svcLen =>
    show (s.services.set tag _).length = MAX_SERVICE + 1
    rw [List.length_set]
    exact hI.svcLen
  case own =>
    intro id
    have hq := queuesCount_set s.services tag
      (some { maxThreads := mt, requestsRunning := 0, waitingRpcs := [] })
      hlt id
    have h5 : ((s.services[tag]?).getD none) = none := hnone
    rw [h5] at hq
    have h6 : queuesCount (s.services.set tag
        (some { maxThreads := mt, requestsRunning := 0,
                waitingRpcs := [] })) id = queuesCount s.services id := by
      simp [qCount] at hq
      omega
    show queuesCount _ id + slotsCount s.workers id +
      replyCount s.replyLog id + testCount s.testRpcs id ≤ 1
    rw [h6]
    exact hI.own id
  case admitLive =>
    intro p hp
    have hp2 : p ∈ s.admitLog := hp
    have hq := queuesCount_set s.services tag
      (some { maxThreads := mt, requestsRunning := 0, waitingRpcs := [] })
      hlt p.2
    have h5 : ((s.services[tag]?).getD none) = none := hnone
    rw [h5] at hq
    have h6 : queuesCount (s.services.set tag
        (some { maxThreads := mt, requestsRunning := 0,
                waitingRpcs := [] })) p.2 = queuesCount s.services p.2 := by
      simp [qCount] at hq
      omega
    show 1 ≤ queuesCount _ p.2 + slotsCount s.workers p.2 +
      replyCount s.replyLog p.2
    rw [h6]
    exact hI.admitLive p hp2
  case fifo =>
    intro t2
    by_cases he : tag = t2
    · subst he
      have hq0 : queueIds s.services tag = [] := by
        have h9 : (s.services[tag]?).getD none = none := hnone
        simp [queueIds, h9]
      have hq1 : queueIds (s.services.set tag
          (some { maxThreads := mt, requestsRunning := 0,
                  waitingRpcs := [] })) tag = [] := by
        simp [queueIds, getD_set_self _ _ _ _ hlt]
      have h7 := hI.fifo tag
      rw [hq0] at h7
      show logFor s.handoffLog tag ++ queueIds (s.services.set tag _) tag =
        logFor s.admitLog tag
      rw [hq1]
      simpa using h7
    · show logFor s.handoffLog t2 ++ queueIds (s.services.set tag _) t2 =
        logFor s.admitLog t2
      have h8 : queueIds (s.services.set tag
          (some { maxThreads := mt, requestsRunning := 0,
                  waitingRpcs := [] })) t2 = queueIds s.services t2 := by
        simp [queueIds, getD_set_ne _ _ _ he]
      rw [h8]
      exact hI.fifo t2

/-! ### Preservation: `handleRpc` -/

lemma getD_concat_ne {α : Type _} (l : List α) (a d : α) (i : Nat)
    (h : i ≠ l.length) : ((l ++ [a])[i]?).getD d = (l[i]?).getD d := by
  rcases Nat.lt_or_ge i l.length with h2 | h2
  · exact getD_append_left _ _ _ _ h2
  · have h3 : l.length < i := Nat.lt_of_le_of_ne h2 (Ne.symm h)
    rw [getD_eq_default _ _ _ (by simp; omega),
      getD_eq_default _ _ _ (by omega)]

lemma getLastD_not_mem_dropLast {α : Type _} (l : List α) (d : α)
    (hnd : l.Nodup) (hne : l ≠ []) : l.getLastD d ∉ l.dropLast := by
  have h2 := dropLast_concat_getLastD l d hne
  have h3 : (l.dropLast ++ [l.getLastD d]).Nodup := by rw [h2]; exact hnd
  rw [List.nodup_append] at h3
  intro hmem
  exact h3.2.2 hmem (List.mem_singleton.mpr rfl)

lemma inv_replyLog_append (s : SMState) (id2 : Nat) (st : Option Status)
    (hI : Inv s) (hfresh : occ s id2 = 0) :
    Inv { s with replyLog := s.replyLog ++ [(id2, st)] } := by
  constructor
  case busyNodup => exact hI.busyNodup
  case idleNodup => exact hI.idleNodup
  case busyLt => exact hI.busyLt
  case idleLt => exact hI.idleLt
  case disj => exact hI.disj
  case busyIdx => exact hI.busyIdx
  case notBusyIdx => exact hI.notBusyIdx
  case idleRpc => exact hI.idleRpc
  case busySvc => exact hI.busySvc
  case counts => exact hI.counts
  case capped => exact hI.capped
  case queueFull => exact hI.queueFull
  case svcLen => exact hI.svcLen
  case own =>
    intro id
    show queuesCount s.services id + slotsCount s.workers id +
      replyCount (s.replyLog ++ [(id2, st)]) id + testCount s.testRpcs id ≤ 1
    rw [replyCount_append]
    have h0 := hI.own id
    simp only [occ, liveOcc] at h0
    by_cases he : id2 = id
    · subst he
      simp only [occ, liveOcc] at hfresh
      rw [if_pos rfl]
      omega
    · rw [if_neg he]
      omega
  case admitLive =>
    intro p hp
    have hp2 : p ∈ s.admitLog := hp
    have h3 := hI.admitLive p hp2
    simp only [liveOcc] at h3
    show 1 ≤ queuesCount s.services p.2 + slotsCount s.workers p.2 +
      replyCount (s.replyLog ++ [(id2, st)]) p.2
    rw [replyCount_append]
    omega
  case fifo => exact hI.fifo

lemma inv_testRpcs_append (s : SMState) (r : ServerRpc)
    (hI : Inv s) (hfresh : occ s r.reqId = 0) :
    Inv { s with testRpcs := s.testRpcs ++ [r] } := by
  constructor
  case busyNodup => exact hI.busyNodup
  case idleNodup => exact hI.idleNodup
  case busyLt => exact hI.busyLt
  case idleLt => exact hI.idleLt
  case disj => exact hI.disj
  case busyIdx => exact hI.busyIdx
  case notBusyIdx => exact hI.notBusyIdx
  case idleRpc => exact hI.idleRpc
  case busySvc => exact hI.busySvc
  case counts => exact hI.counts
  case capped => exact hI.capped
  case queueFull => exact hI.queueFull
  case svcLen => exact hI.svcLen
  case own =>
    intro id
    show queuesCount s.services id + slotsCount s.workers id +
      replyCount s.replyLog id + testCount (s.testRpcs ++ [r]) id ≤ 1
    rw [testCount_append]
    have h0 := hI.own id
    simp only [occ, liveOcc] at h0
    by_cases he : r.reqId = id
    · subst he
      simp only [occ, liveOcc] at hfresh
      rw [if_pos rfl]
      omega
    · rw [if_neg he]
      omega
  case admitLive =>
    intro p hp
    exact hI.admitLive p hp
  case fifo => exact hI.fifo

lemma inv_handleRpc_queue (s : SMState) (rpc : ServerRpc) (tag : Nat)
    (info : ServiceInfo) (hI : Inv s) (hfresh : occ s rpc.reqId = 0)
    (hle : tag ≤ MAX_SERVICE) (hs : sget s tag = some info)
    (hcap : info.maxThreads ≤ info.requestsRunning) :
    Inv { s with
            services := s.services.set tag
              (some { info with waitingRpcs := info.waitingRpcs ++ [rpc] })
            admitLog := s.admitLog ++ [(tag, rpc.reqId)] } := by
  have hlt : tag < s.services.length := by rw [hI.svcLen]; omega
  have hrr : info.requestsRunning = info.maxThreads :=
    Nat.le_antisymm (hI.capped tag info hs) hcap
  constructor
  case busyNodup => exact hI.busyNodup
  case idleNodup => exact hI.idleNodup
  case busyLt => exact hI.busyLt
  case idleLt => exact hI.idleLt
  case disj => exact hI.disj
  case busyIdx => exact hI.busyIdx
  case notBusyIdx => exact hI.notBusyIdx
  case idleRpc => exact hI.idleRpc
  case busySvc =>
    intro w hw
    obtain ⟨t2, info2, h1, h2⟩ := hI.busySvc w hw
    by_cases he : tag = t2
    · subst he
      exact ⟨tag, { info with waitingRpcs := info.waitingRpcs ++ [rpc] }, h1,
        getD_set_self _ _ _ _ hlt⟩
    · refine ⟨t2, info2, h1, ?_⟩
      show ((s.services.set tag _)[t2]?).getD none = _
      rw [getD_set_ne _ _ _ he]
      exact h2
  case counts =>
    intro t2 info2 h2
    by_cases he : tag = t2
    · subst he
      have h5 : some ({ info with
          waitingRpcs := info.waitingRpcs ++ [rpc] } : ServiceInfo) =
          some info2 := by
        rw [← h2]
        exact (getD_set_self _ _ _ _ hlt).symm
      injection h5 with h6
      rw [← h6]
      show info.requestsRunning = boundCount s.busyThreads s.workers tag
      exact hI.counts tag info hs
    · have h4 : sget s t2 = some info2 := by
        have h5 : ((s.services.set tag _)[t2]?).getD none = some info2 := h2
        rw [getD_set_ne _ _ _ he] at h5
        exact h5
      exact hI.counts t2 info2 h4
  case capped =>
    intro t2 info2 h2
    by_cases he : tag = t2
    · subst he
      have h5 : some ({ info with
          waitingRpcs := info.waitingRpcs ++ [rpc] } : ServiceInfo) =
          some info2 := by
        rw [← h2]
        exact (getD_set_self _ _ _ _ hlt).symm
      injection h5 with h6
      rw [← h6]
      exact hI.capped tag info hs
    · have h4 : sget s t2 = some info2 := by
        have h5 : ((s.services.set tag _)[t2]?).getD none = some info2 := h2
        rw [getD_set_ne _ _ _ he] at h5
        exact h5
      exact hI.capped t2 info2 h4
  case queueFull =>
    intro t2 info2 h2 hne
    by_cases he : tag = t2
    · subst he
      have h5 : some ({ info with
          waitingRpcs := info.waitingRpcs ++ [rpc] } : ServiceInfo) =
          some info2 := by
        rw [← h2]
        exact (getD_set_self _ _ _ _ hlt).symm
      injection h5 with h6
      rw [← h6]
      exact hrr
    · have h4 : sget s t2 = some info2 := by
        have h5 : ((s.services.set tag _)[t2]?).getD none = some info2 := h2
        rw [getD_set_ne _ _ _ he] at h5
        exact h5
      exact hI.queueFull t2 info2 h4 hne
  case svcLen =>
    show (s.services.set tag _).length = MAX_SERVICE + 1
    rw [List.length_set]
    exact hI.svcLen
  case own =>
    intro id
    have hq := queuesCount_set s.services tag
      (some { info with waitingRpcs := info.waitingRpcs ++ [rpc] }) hlt id
    have h5 : ((s.services[tag]?).getD none) = some info := hs
    rw [h5, qCount_append] at hq
    have h0 := hI.own id
    simp only [occ, liveOcc] at h0 ⊢
    show queuesCount (s.services.set tag _) id + slotsCount s.workers id +
      replyCount s.replyLog id + testCount s.testRpcs id ≤ 1
    by_cases he : rpc.reqId = id
    · subst he
      simp only [occ, liveOcc] at hfresh
      rw [if_pos rfl] at hq
      omega
    · rw [if_neg he] at hq
      omega
  case admitLive =>
    intro p hp
    have hq := fun id => queuesCount_set s.services tag
      (some { info with waitingRpcs := info.waitingRpcs ++ [rpc] }) hlt id
    have h5 : ((s.services[tag]?).getD none) = some info := hs
    show 1 ≤ queuesCount (s.services.set tag _) p.2 +
      slotsCount s.workers p.2 + replyCount s.replyLog p.2
    rcases List.mem_append.mp hp with hp2 | hp2
    · have h3 := hI.admitLive p hp2
      simp only [liveOcc] at h3
      have hq2 := hq p.2
      rw [h5, qCount_append] at hq2
      by_cases he : rpc.reqId = p.2
      · rw [if_pos he] at hq2
        omega
      · rw [if_neg he] at hq2
        omega
    · have hp3 : p = (tag, rpc.reqId) := by simpa using hp2
      subst hp3
      have hq2 := hq rpc.reqId
      rw [h5, qCount_append, if_pos rfl] at hq2
      show 1 ≤ queuesCount (s.services.set tag
        (some { info with waitingRpcs := info.waitingRpcs ++ [rpc] }))
        rpc.reqId + slotsCount s.workers rpc.reqId +
        replyCount s.replyLog rpc.reqId
      omega
  case fifo =>
    intro t2
    show logFor s.handoffLog t2 ++ queueIds (s.services.set tag _) t2 =
      logFor (s.admitLog ++ [(tag, rpc.reqId)]) t2
    rw [logFor_append]
    by_cases he : tag = t2
    · subst he
      have hq1 : queueIds (s.services.set tag
          (some { info with waitingRpcs := info.waitingRpcs ++ [rpc] })) tag =
          queueIds s.services tag ++ [rpc.reqId] := by
        have h5 : ((s.services[tag]?).getD none) = some info := hs
        simp [queueIds, getD_set_self _ _ _ _ hlt, h5]
      rw [hq1, if_pos rfl, ← List.append_assoc, hI.fifo tag]
    · have hq1 : queueIds (s.services.set tag
          (some { info with waitingRpcs := info.waitingRpcs ++ [rpc] })) t2 =
          queueIds s.services t2 := by
        simp [queueIds, getD_set_ne _ _ _ he]
      rw [hq1, if_neg he]
      simpa using hI.fifo t2

lemma inv_handleRpc_admit_new (s : SMState) (rpc : ServerRpc) (tag : Nat)
    (info : ServiceInfo) (hI : Inv s) (hfresh : occ s rpc.reqId = 0)
    (hle : tag ≤ MAX_SERVICE) (hs : sget s tag = some info)
    (hcap : info.requestsRunning < info.maxThreads)
    (hidle : s.idleThreads = []) :
    Inv { s with
            services := s.services.set tag
              (some { info with requestsRunning := info.requestsRunning + 1 })
            admitLog := s.admitLog ++ [(tag, rpc.reqId)]
            workers := s.workers ++
              [{ rpc := some (WorkItem.req rpc), serviceInfo := some tag
                 busyIndex := Int.ofNat s.busyThreads.length
                 state := WState.WORKING, exited := false }]
            handoffLog := s.handoffLog ++ [(tag, rpc.reqId)]
            busyThreads := s.busyThreads ++ [s.workers.length] } := by
  set wNew : Worker :=
    { rpc := some (WorkItem.req rpc), serviceInfo := some tag
      busyIndex := Int.ofNat s.busyThreads.length
      state := WState.WORKING, exited := false } with hwNew
  have hlt : tag < s.services.length := by rw [hI.svcLen]; omega
  have hq0 : info.waitingRpcs = [] := by
    by_contra hq
    have := hI.queueFull tag info hs hq
    omega
  have hnb : s.workers.length ∉ s.busyThreads := fun hmem =>
    absurd (hI.busyLt _ hmem) (lt_irrefl _)
  have hwgetOld : ∀ w ∈ s.busyThreads,
      (((s.workers ++ [wNew])[w]?).getD Worker.init) =
        ((s.workers[w]?).getD Worker.init) := by
    intro w hw
    exact getD_append_left _ _ _ _ (hI.busyLt w hw)
  have hwgetNew : (((s.workers ++ [wNew])[s.workers.length]?).getD
      Worker.init) = wNew := getD_concat_length _ _ _
  constructor
  case busyNodup =>
    show (s.busyThreads ++ [s.workers.length]).Nodup
    refine List.Nodup.append hI.busyNodup (by simp) ?_
    intro w hw hw2
    rw [List.mem_singleton] at hw2
    subst hw2
    exact hnb hw
  case idleNodup => show s.idleThreads.Nodup; exact hI.idleNodup
  case busyLt =>
    intro w hw
    show w < (s.workers ++ [wNew]).length
    rcases List.mem_append.mp hw with h2 | h2
    · have := hI.busyLt w h2
      simp
      omega
    · rw [List.mem_singleton] at h2
      subst h2
      simp
  case idleLt =>
    intro w hw
    show w < (s.workers ++ [wNew]).length
    have := hI.idleLt w hw
    simp
    omega
  case disj =>
    intro w _ hw2
    rw [hidle] at hw2
    simp at hw2
  case busyIdx =>
    intro i h
    have h2 : i < s.busyThreads.length + 1 := by simpa using h
    rcases Nat.lt_or_ge i s.busyThreads.length with h3 | h3
    · have e1 : (s.busyThreads ++ [s.workers.length])[i] =
          s.busyThreads[i] := List.getElem_append_left h3
      show (((s.workers ++ [wNew])[(s.busyThreads ++
        [s.workers.length])[i]]?).getD Worker.init).busyIndex = Int.ofNat i
      rw [e1, hwgetOld _ (List.getElem_mem h3)]
      exact hI.busyIdx i h3
    · have h4 : i = s.busyThreads.length := by omega
      subst h4
      have e1 : (s.busyThreads ++ [s.workers.length])[s.busyThreads.length] =
          s.workers.length := by
        have := List.getElem?_concat_length s.busyThreads s.workers.length
        rw [List.getElem?_eq_getElem (by simp)] at this
        injection this
      show (((s.workers ++ [wNew])[(s.busyThreads ++
        [s.workers.length])[s.busyThreads.length]]?).getD
        Worker.init).busyIndex = Int.ofNat s.busyThreads.length
      rw [e1, hwgetNew]
  case notBusyIdx =>
    intro w hw
    have hw1 : w ∉ s.busyThreads := fun h2 =>
      hw (List.mem_append.mpr (Or.inl h2))
    have hw2 : w ≠ s.workers.length := fun h2 =>
      hw (List.mem_append.mpr (Or.inr (by simp [h2])))
    show (((s.workers ++ [wNew])[w]?).getD Worker.init).busyIndex = -1
    rw [getD_concat_ne _ _ _ _ hw2]
    exact hI.notBusyIdx w hw1
  case idleRpc =>
    intro w hw
    rw [hidle] at hw
    simp at hw
  case busySvc =>
    intro w hw
    rcases List.mem_append.mp hw with h2 | h2
    · obtain ⟨t2, info2, h3, h4⟩ := hI.busySvc w h2
      by_cases he : tag = t2
      · subst he
        refine ⟨tag, { info with
            requestsRunning := info.requestsRunning + 1 }, ?_, ?_⟩
        · show (((s.workers ++ [wNew])[w]?).getD Worker.init).serviceInfo =
            some tag
          rw [hwgetOld w h2]
          exact h3
        · exact getD_set_self _ _ _ _ hlt
      · refine ⟨t2, info2, ?_, ?_⟩
        · show (((s.workers ++ [wNew])[w]?).getD Worker.init).serviceInfo =
            some t2
          rw [hwgetOld w h2]
          exact h3
        · show ((s.services.set tag _)[t2]?).getD none = _
          rw [getD_set_ne _ _ _ he]
          exact h4
    · rw [List.mem_singleton] at h2
      subst h2
      refine ⟨tag, { info with
          requestsRunning := info.requestsRunning + 1 }, ?_, ?_⟩
      · show (((s.workers ++ [wNew])[s.workers.length]?).getD
          Worker.init).serviceInfo = some tag
        rw [hwgetNew]
      · exact getD_set_self _ _ _ _ hlt
  case counts =>
    intro t2 info2 h2
    have hbc1 : boundCount s.busyThreads (s.workers ++ [wNew]) t2 =
        boundCount s.busyThreads s.workers t2 :=
      boundCount_congr _ _ _ (fun w hw => by rw [hwgetOld w hw]) t2
    have hbc2 : boundCount (s.busyThreads ++ [s.workers.length])
        (s.workers ++ [wNew]) t2 =
        boundCount s.busyThreads (s.workers ++ [wNew]) t2 +
        (if (some tag : Option Nat) = some t2 then 1 else 0) := by
      rw [boundCount_concat]
      congr 1
      rw [hwgetNew]
    by_cases he : tag = t2
    · subst he
      have h5 : some ({ info with
          requestsRunning := info.requestsRunning + 1 } : ServiceInfo) =
          some info2 := by
        rw [← h2]
        exact (getD_set_self _ _ _ _ hlt).symm
      injection h5 with h6
      rw [← h6]
      show info.requestsRunning + 1 =
        boundCount (s.busyThreads ++ [s.workers.length])
          (s.workers ++ [wNew]) tag
      rw [hbc2, hbc1, if_pos rfl, ← hI.counts tag info hs]
    · have h4 : sget s t2 = some info2 := by
        have h5 : ((s.services.set tag _)[t2]?).getD none = some info2 := h2
        rw [getD_set_ne _ _ _ he] at h5
        exact h5
      show info2.requestsRunning =
        boundCount (s.busyThreads ++ [s.workers.length])
          (s.workers ++ [wNew]) t2
      rw [hbc2, hbc1, if_neg (by simpa using he), Nat.add_zero]
      exact hI.counts t2 info2 h4
  case capped =>
    intro t2 info2 h2
    by_cases he : tag = t2
    · subst he
      have h5 : some ({ info with
          requestsRunning := info.requestsRunning + 1 } : ServiceInfo) =
          some info2 := by
        rw [← h2]
        exact (getD_set_self _ _ _ _ hlt).symm
      injection h5 with h6
      rw [← h6]
      show info.requestsRunning + 1 ≤ info.maxThreads
      omega
    · have h4 : sget s t2 = some info2 := by
        have h5 : ((s.services.set tag _)[t2]?).getD none = some info2 := h2
        rw [getD_set_ne _ _ _ he] at h5
        exact h5
      exact hI.capped t2 info2 h4
  case queueFull =>
    intro t2 info2 h2 hne
    by_cases he : tag = t2
    · subst he
      have h5 : some ({ info with
          requestsRunning := info.requestsRunning + 1 } : ServiceInfo) =
          some info2 := by
        rw [← h2]
        exact (getD_set_self _ _ _ _ hlt).symm
      injection h5 with h6
      rw [← h6] at hne
      exact absurd hq0 hne
    · have h4 : sget s t2 = some info2 := by
        have h5 : ((s.services.set tag _)[t2]?).getD none = some info2 := h2
        rw [getD_set_ne _ _ _ he] at h5
        exact h5
      exact hI.queueFull t2 info2 h4 hne
  case svcLen =>
    show (s.services.set tag _).length = MAX_SERVICE + 1
    rw [List.length_set]
    exact hI.svcLen
  case own =>
    intro id
    have hq := queuesCount_set s.services tag
      (some { info with requestsRunning := info.requestsRunning + 1 })
      hlt id
    have h5 : ((s.services[tag]?).getD none) = some info := hs
    rw [h5] at hq
    have hq2 : queuesCount (s.services.set tag
        (some { info with requestsRunning := info.requestsRunning + 1 })) id =
        queuesCount s.services id := by
      have : qCount (some { info with
          requestsRunning := info.requestsRunning + 1 }) id =
          qCount (some info) id := rfl
      omega
    have hsl : slotsCount (s.workers ++ [wNew]) id =
        slotsCount s.workers id + (if rpc.reqId = id then 1 else 0) := by
      rw [slotsCount_concat]
      rfl
    have h0 := hI.own id
    simp only [occ, liveOcc] at h0
    show queuesCount (s.services.set tag _) id +
      slotsCount (s.workers ++ [wNew]) id +
      replyCount s.replyLog id + testCount s.testRpcs id ≤ 1
    rw [hq2, hsl]
    by_cases he : rpc.reqId = id
    · subst he
      simp only [occ, liveOcc] at hfresh
      rw [if_pos rfl]
      omega
    · rw [if_neg he]
      omega
  case admitLive =>
    intro p hp
    have hq := queuesCount_set s.services tag
      (some { info with requestsRunning := info.requestsRunning + 1 })
      hlt p.2
    have h5 : ((s.services[tag]?).getD none) = some info := hs
    rw [h5] at hq
    have hq2 : queuesCount (s.services.set tag
        (some { info with requestsRunning := info.requestsRunning + 1 }))
        p.2 = queuesCount s.services p.2 := by
      have : qCount (some { info with
          requestsRunning := info.requestsRunning + 1 }) p.2 =
          qCount (some info) p.2 := rfl
      omega
    have hsl : slotsCount (s.workers ++ [wNew]) p.2 =
        slotsCount s.workers p.2 + (if rpc.reqId = p.2 then 1 else 0) := by
      rw [slotsCount_concat]
      rfl
    show 1 ≤ queuesCount (s.services.set tag _) p.2 +
      slotsCount (s.workers ++ [wNew]) p.2 + replyCount s.replyLog p.2
    rw [hq2, hsl]
    rcases List.mem_append.mp hp with hp2 | hp2
    · have h3 := hI.admitLive p hp2
      simp only [liveOcc] at h3
      by_cases he : rpc.reqId = p.2
      · rw [if_pos he]; omega
      · rw [if_neg he]; omega
    · have hp3 : p = (tag, rpc.reqId) := by simpa using hp2
      subst hp3
      rw [if_pos rfl]
      omega
  case fifo =>
    intro t2
    show logFor (s.handoffLog ++ [(tag, rpc.reqId)]) t2 ++
      queueIds (s.services.set tag _) t2 =
      logFor (s.admitLog ++ [(tag, rpc.reqId)]) t2
    rw [logFor_append, logFor_append]
    by_cases he : tag = t2
    · subst he
      have hq1 : queueIds (s.services.set tag
          (some { info with
            requestsRunning := info.requestsRunning + 1 })) tag = [] := by
        simp [queueIds, getD_set_self _ _ _ _ hlt, hq0]
      have hq3 : queueIds s.services tag = [] := by
        have h5 : ((s.services[tag]?).getD none) = some info := hs
        simp [queueIds, h5, hq0]
      have h7 := hI.fifo tag
      rw [hq3, List.append_nil] at h7
      rw [hq1, if_pos rfl, List.append_nil, h7]
    · have hq1 : queueIds (s.services.set tag
          (some { info with
            requestsRunning := info.requestsRunning + 1 })) t2 =
          queueIds s.services t2 := by
        simp [queueIds, getD_set_ne _ _ _ he]
      rw [hq1, if_neg he, List.append_nil, List.append_nil]
      exact hI.fifo t2

lemma inv_handleRpc_admit_pop (s : SMState) (rpc : ServerRpc) (tag : Nat)
    (info : ServiceInfo) (hI : Inv s) (hfresh : occ s rpc.reqId = 0)
    (hle : tag ≤ MAX_SERVICE) (hs : sget s tag = some info)
    (hcap : info.requestsRunning < info.maxThreads)
    (hidle : s.idleThreads ≠ []) :
    Inv { s with
            services := s.services.set tag
              (some { info with requestsRunning := info.requestsRunning + 1 })
            admitLog := s.admitLog ++ [(tag, rpc.reqId)]
            idleThreads := s.idleThreads.dropLast
            workers := s.workers.set (s.idleThreads.getLastD 0)
              { wget s (s.idleThreads.getLastD 0) with
                  serviceInfo := some tag
                  rpc := some (WorkItem.req rpc)
                  state := WState.WORKING
                  busyIndex := Int.ofNat s.busyThreads.length }
            handoffLog := s.handoffLog ++ [(tag, rpc.reqId)]
            busyThreads := s.busyThreads ++ [s.idleThreads.getLastD 0] } := by
  set wid := s.idleThreads.getLastD 0 with hwid
  set wFin : Worker :=
    { wget s wid with
        serviceInfo := some tag
        rpc := some (WorkItem.req rpc)
        state := WState.WORKING
        busyIndex := Int.ofNat s.busyThreads.length } with hwFin
  have hlt : tag < s.services.length := by rw [hI.svcLen]; omega
  have hq0 : info.waitingRpcs = [] := by
    by_contra hq
    have := hI.queueFull tag info hs hq
    omega
  have hmem : wid ∈ s.idleThreads := getLastD_mem _ _ hidle
  have hwlt : wid < s.workers.length := hI.idleLt wid hmem
  have hnb : wid ∉ s.busyThreads := fun hmem2 => hI.disj wid hmem2 hmem
  have hrpc0 : (wget s wid).rpc = none := hI.idleRpc wid hmem
  have hwgetAt : (((s.workers.set wid wFin)[wid]?).getD Worker.init) = wFin :=
    getD_set_self _ _ _ _ hwlt
  have hwgetNe : ∀ w, w ≠ wid →
      (((s.workers.set wid wFin)[w]?).getD Worker.init) =
        ((s.workers[w]?).getD Worker.init) := by
    intro w hw
    exact getD_set_ne _ _ _ (fun h2 => hw h2.symm)
  have hbusyNe : ∀ w ∈ s.busyThreads, w ≠ wid := by
    intro w hw h2
    subst h2
    exact hnb hw
  have hdropSub : ∀ w ∈ s.idleThreads.dropLast, w ∈ s.idleThreads := by
    intro w hw
    exact (List.dropLast_sublist s.idleThreads).subset hw
  have hwidDrop : wid ∉ s.idleThreads.dropLast :=
    getLastD_not_mem_dropLast _ _ hI.idleNodup hidle
  constructor
  case busyNodup =>
    show (s.busyThreads ++ [wid]).Nodup
    refine List.Nodup.append hI.busyNodup (by simp) ?_
    intro w hw hw2
    rw [List.mem_singleton] at hw2
    subst hw2
    exact hnb hw
  case idleNodup =>
    show s.idleThreads.dropLast.Nodup
    exact (List.dropLast_sublist s.idleThreads).nodup hI.idleNodup
  case busyLt =>
    intro w hw
    show w < (s.workers.set wid wFin).length
    rw [List.length_set]
    rcases List.mem_append.mp hw with h2 | h2
    · exact hI.busyLt w h2
    · rw [List.mem_singleton] at h2
      subst h2
      exact hwlt
  case idleLt =>
    intro w hw
    show w < (s.workers.set wid wFin).length
    rw [List.length_set]
    exact hI.idleLt w (hdropSub w hw)
  case disj =>
    intro w hw hw2
    rcases List.mem_append.mp hw with h2 | h2
    · exact hI.disj w h2 (hdropSub w hw2)
    · rw [List.mem_singleton] at h2
      subst h2
      exact hwidDrop hw2
  case busyIdx =>
    intro i h
    have h2 : i < s.busyThreads.length + 1 := by simpa using h
    rcases Nat.lt_or_ge i s.busyThreads.length with h3 | h3
    · have e1 : (s.busyThreads ++ [wid])[i] = s.busyThreads[i] :=
        List.getElem_append_left h3
      show (((s.workers.set wid wFin)[(s.busyThreads ++
        [wid])[i]]?).getD Worker.init).busyIndex = Int.ofNat i
      rw [e1, hwgetNe _ (hbusyNe _ (List.getElem_mem h3))]
      exact hI.busyIdx i h3
    · have h4 : i = s.busyThreads.length := by omega
      subst h4
      have e1 : (s.busyThreads ++ [wid])[s.busyThreads.length] = wid := by
        have := List.getElem?_concat_length s.busyThreads wid
        rw [List.getElem?_eq_getElem (by simp)] at this
        injection this
      show (((s.workers.set wid wFin)[(s.busyThreads ++
        [wid])[s.busyThreads.length]]?).getD Worker.init).busyIndex =
        Int.ofNat s.busyThreads.length
      rw [e1, hwgetAt]
  case notBusyIdx =>
    intro w hw
    have hw1 : w ∉ s.busyThreads := fun h2 =>
      hw (List.mem_append.mpr (Or.inl h2))
    have hw2 : w ≠ wid := fun h2 =>
      hw (List.mem_append.mpr (Or.inr (by simp [h2])))
    show (((s.workers.set wid wFin)[w]?).getD Worker.init).busyIndex = -1
    rw [hwgetNe _ hw2]
    exact hI.notBusyIdx w hw1
  case idleRpc =>
    intro w hw
    have hw2 : w ≠ wid := fun h2 => hwidDrop (h2 ▸ hw)
    show (((s.workers.set wid wFin)[w]?).getD Worker.init).rpc = none
    rw [hwgetNe _ hw2]
    exact hI.idleRpc w (hdropSub w hw)
  case busySvc =>
    intro w hw
    rcases List.mem_append.mp hw with h2 | h2
    · obtain ⟨t2, info2, h3, h4⟩ := hI.busySvc w h2
      by_cases he : tag = t2
      · subst he
        refine ⟨tag, { info with
            requestsRunning := info.requestsRunning + 1 }, ?_, ?_⟩
        · show (((s.workers.set wid wFin)[w]?).getD
            Worker.init).serviceInfo = some tag
          rw [hwgetNe _ (hbusyNe _ h2)]
          exact h3
        · exact getD_set_self _ _ _ _ hlt
      · refine ⟨t2, info2, ?_, ?_⟩
        · show (((s.workers.set wid wFin)[w]?).getD
            Worker.init).serviceInfo = some t2
          rw [hwgetNe _ (hbusyNe _ h2)]
          exact h3
        · show ((s.services.set tag _)[t2]?).getD none = _
          rw [getD_set_ne _ _ _ he]
          exact h4
    · rw [List.mem_singleton] at h2
      subst h2
      refine ⟨tag, { info with
          requestsRunning := info.requestsRunning + 1 }, ?_, ?_⟩
      · show (((s.workers.set wid wFin)[wid]?).getD
          Worker.init).serviceInfo = some tag
        rw [hwgetAt]
      · exact getD_set_self _ _ _ _ hlt
  case counts =>
    intro t2 info2 h2
    have hbc1 : boundCount s.busyThreads (s.workers.set wid wFin) t2 =
        boundCount s.busyThreads s.workers t2 :=
      boundCount_congr _ _ _
        (fun w hw => by rw [hwgetNe _ (hbusyNe _ hw)]) t2
    have hbc2 : boundCount (s.busyThreads ++ [wid])
        (s.workers.set wid wFin) t2 =
        boundCount s.busyThreads (s.workers.set wid wFin) t2 +
        (if (some tag : Option Nat) = some t2 then 1 else 0) := by
      rw [boundCount_concat]
      congr 1
      rw [hwgetAt]
    by_cases he : tag = t2
    · subst he
      have h5 : some ({ info with
          requestsRunning := info.requestsRunning + 1 } : ServiceInfo) =
          some info2 := by
        rw [← h2]
        exact (getD_set_self _ _ _ _ hlt).symm
      injection h5 with h6
      rw [← h6]
      show info.requestsRunning + 1 =
        boundCount (s.busyThreads ++ [wid]) (s.workers.set wid wFin) tag
      rw [hbc2, hbc1, if_pos rfl, ← hI.counts tag info hs]
    · have h4 : sget s t2 = some info2 := by
        have h5 : ((s.services.set tag _)[t2]?).getD none = some info2 := h2
        rw [getD_set_ne _ _ _ he] at h5
        exact h5
      show info2.requestsRunning =
        boundCount (s.busyThreads ++ [wid]) (s.workers.set wid wFin) t2
      rw [hbc2, hbc1, if_neg (by simpa using he), Nat.add_zero]
      exact hI.counts t2 info2 h4
  case capped =>
    intro t2 info2 h2
    by_cases he : tag = t2
    · subst he
      have h5 : some ({ info with
          requestsRunning := info.requestsRunning + 1 } : ServiceInfo) =
          some info2 := by
        rw [← h2]
        exact (getD_set_self _ _ _ _ hlt).symm
      injection h5 with h6
      rw [← h6]
      show info.requestsRunning + 1 ≤ info.maxThreads
      omega
    · have h4 : sget s t2 = some info2 := by
        have h5 : ((s.services.set tag _)[t2]?).getD none = some info2 := h2
        rw [getD_set_ne _ _ _ he] at h5
        exact h5
      exact hI.capped t2 info2 h4
  case queueFull =>
    intro t2 info2 h2 hne
    by_cases he : tag = t2
    · subst he
      have h5 : some ({ info with
          requestsRunning := info.requestsRunning + 1 } : ServiceInfo) =
          some info2 := by
        rw [← h2]
        exact (getD_set_self _ _ _ _ hlt).symm
      injection h5 with h6
      rw [← h6] at hne
      exact absurd hq0 hne
    · have h4 : sget s t2 = some info2 := by
        have h5 : ((s.services.set tag _)[t2]?).getD none = some info2 := h2
        rw [getD_set_ne _ _ _ he] at h5
        exact h5
      exact hI.queueFull t2 info2 h4 hne
  case svcLen =>
    show (s.services.set tag _).length = MAX_SERVICE + 1
    rw [List.length_set]
    exact hI.svcLen
  case own =>
    intro id
    have hq := queuesCount_set s.services tag
      (some { info with requestsRunning := info.requestsRunning + 1 })
      hlt id
    have h5 : ((s.services[tag]?).getD none) = some info := hs
    rw [h5] at hq
    have hq2 : queuesCount (s.services.set tag
        (some { info with requestsRunning := info.requestsRunning + 1 })) id =
        queuesCount s.services id := by
      have : qCount (some { info with
          requestsRunning := info.requestsRunning + 1 }) id =
          qCount (some info) id := rfl
      omega
    have hsl0 : slotCount ((s.workers[wid]?).getD Worker.init) id = 0 := by
      have : ((s.workers[wid]?).getD Worker.init).rpc = none := hrpc0
      simp [slotCount, this]
    have hsl1 := slotsCount_set s.workers wid wFin hwlt id
    have hslF : slotCount wFin id = (if rpc.reqId = id then 1 else 0) := rfl
    have h0 := hI.own id
    simp only [occ, liveOcc] at h0
    show queuesCount (s.services.set tag _) id +
      slotsCount (s.workers.set wid wFin) id +
      replyCount s.replyLog id + testCount s.testRpcs id ≤ 1
    rw [hq2]
    by_cases he : rpc.reqId = id
    · subst he
      simp only [occ, liveOcc] at hfresh
      rw [if_pos rfl] at hslF
      omega
    · rw [if_neg he] at hslF
      omega
  case admitLive =>
    intro p hp
    have hq := queuesCount_set s.services tag
      (some { info with requestsRunning := info.requestsRunning + 1 })
      hlt p.2
    have h5 : ((s.services[tag]?).getD none) = some info := hs
    rw [h5] at hq
    have hq2 : queuesCount (s.services.set tag
        (some { info with requestsRunning := info.requestsRunning + 1 }))
        p.2 = queuesCount s.services p.2 := by
      have : qCount (some { info with
          requestsRunning := info.requestsRunning + 1 }) p.2 =
          qCount (some info) p.2 := rfl
      omega
    have hsl0 : slotCount ((s.workers[wid]?).getD Worker.init) p.2 = 0 := by
      have : ((s.workers[wid]?).getD Worker.init).rpc = none := hrpc0
      simp [slotCount, this]
    have hsl1 := slotsCount_set s.workers wid wFin hwlt p.2
    have hslF : slotCount wFin p.2 = (if rpc.reqId = p.2 then 1 else 0) := rfl
    show 1 ≤ queuesCount (s.services.set tag _) p.2 +
      slotsCount (s.workers.set wid wFin) p.2 + replyCount s.replyLog p.2
    rw [hq2]
    rcases List.mem_append.mp hp with hp2 | hp2
    · have h3 := hI.admitLive p hp2
      simp only [liveOcc] at h3
      by_cases he : rpc.reqId = p.2
      · rw [if_pos he] at hslF
        omega
      · rw [if_neg he] at hslF
        omega
    · have hp3 : p = (tag, rpc.reqId) := by simpa using hp2
      subst hp3
      rw [if_pos rfl] at hslF
      omega
  case fifo =>
    intro t2
    show logFor (s.handoffLog ++ [(tag, rpc.reqId)]) t2 ++
      queueIds (s.services.set tag _) t2 =
      logFor (s.admitLog ++ [(tag, rpc.reqId)]) t2
    rw [logFor_append, logFor_append]
    by_cases he : tag = t2
    · subst he
      have hq1 : queueIds (s.services.set tag
          (some { info with
            requestsRunning := info.requestsRunning + 1 })) tag = [] := by
        simp [queueIds, getD_set_self _ _ _ _ hlt, hq0]
      have hq3 : queueIds s.services tag = [] := by
        have h6 : ((s.services[tag]?).getD none) = some info := hs
        simp [queueIds, h6, hq0]
      have h7 := hI.fifo tag
      rw [hq3, List.append_nil] at h7
      rw [hq1, if_pos rfl, List.append_nil, h7]
    · have hq1 : queueIds (s.services.set tag
          (some { info with
            requestsRunning := info.requestsRunning + 1 })) t2 =
          queueIds s.services t2 := by
        simp [queueIds, getD_set_ne _ _ _ he]
      rw [hq1, if_neg he, List.append_nil, List.append_nil]
      exact hI.fifo t2

lemma inv_handleRpc (s : SMState) (rpc : ServerRpc) (hI : Inv s)
    (hfresh : occ s rpc.reqId = 0) : Inv (handleRpc s rpc) := by
  have htSplit : (s.testing = true ∧ s.serviceCount = 0) ∨
      (s.testing = false ∨ s.serviceCount ≠ 0) := by
    rcases Bool.eq_false_or_eq_true s.testing with h | h
    · by_cases hc : s.serviceCount = 0
      · left; exact ⟨h, hc⟩
      · right; right; exact hc
    · right; left; exact h
  rcases hh : getStart rpc with _ | hd
  · rcases htSplit with ht | ht
    · rw [handleRpc_test s rpc (Or.inl hh) ht.1 ht.2]
      exact inv_testRpcs_append s rpc hI hfresh
    · rw [handleRpc_tooShort s rpc hh ht]
      exact inv_replyLog_append s rpc.reqId _ hI hfresh
  · by_cases hroute : hd.service ≤ MAX_SERVICE ∧
        ∃ info, sget s hd.service = some info
    · obtain ⟨hle, info, hs⟩ := hroute
      by_cases hcap : info.maxThreads ≤ info.requestsRunning
      · rw [handleRpc_queue s rpc hd info hh hle hs hcap]
        exact inv_handleRpc_queue s rpc hd.service info hI hfresh hle hs hcap
      · have hcap2 : info.requestsRunning < info.maxThreads :=
          Nat.lt_of_not_le hcap
        by_cases hidle : s.idleThreads = []
        · rw [handleRpc_admit_new s rpc hd info hh hle hs hcap2 hidle]
          exact inv_handleRpc_admit_new s rpc hd.service info hI hfresh hle
            hs hcap2 hidle
        · have hlt2 : s.idleThreads.getLastD 0 < s.workers.length :=
            hI.idleLt _ (getLastD_mem _ _ hidle)
          rw [handleRpc_admit_pop s rpc hd info hh hle hs hcap2 hidle hlt2]
          exact inv_handleRpc_admit_pop s rpc hd.service info hI hfresh hle
            hs hcap2 hidle
    · have hbad : MAX_SERVICE < hd.service ∨ sget s hd.service = none := by
        by_cases h1 : hd.service ≤ MAX_SERVICE
        · right
          rcases h2 : sget s hd.service with _ | info
          · rfl
          · exact absurd ⟨h1, info, h2⟩ hroute
        · left
          omega
      rcases htSplit with ht | ht
      · rw [handleRpc_test s rpc (Or.inr ⟨hd, hh, hbad⟩) ht.1 ht.2]
        exact inv_testRpcs_append s rpc hI hfresh
      · rw [handleRpc_notAvail s rpc hd hh hbad ht]
        exact inv_replyLog_append s rpc.reqId _ hI hfresh

/-! ### Preservation: `poll` -/

lemma inv_clearSlot (s : SMState) (wid : Nat) (extra : List (Nat × Option Status))
    (hI : Inv s) (hbusy : wid ∈ s.busyThreads)
    (hocc : ∀ id, slotCount { wget s wid with rpc := none } id +
      replyCount (s.replyLog ++ extra) id =
      slotCount (wget s wid) id + replyCount s.replyLog id) :
    Inv { s with
            replyLog := s.replyLog ++ extra
            workers := s.workers.set wid { wget s wid with rpc := none } } := by
  have hwlt : wid < s.workers.length := hI.busyLt wid hbusy
  set w2 : Worker := { wget s wid with rpc := none } with hw2
  have hwgetAt : (((s.workers.set wid w2)[wid]?).getD Worker.init) = w2 :=
    getD_set_self _ _ _ _ hwlt
  have hwgetNe : ∀ w, w ≠ wid →
      (((s.workers.set wid w2)[w]?).getD Worker.init) =
        ((s.workers[w]?).getD Worker.init) := by
    intro w hw
    exact getD_set_ne s.workers w2 Worker.init (fun h2 => hw h2.symm)
  have hsvc : ∀ w : Nat, (((s.workers.set wid w2)[w]?).getD
      Worker.init).serviceInfo = ((s.workers[w]?).getD
      Worker.init).serviceInfo := by
    intro w
    by_cases hw : w = wid
    · subst hw
      rw [hwgetAt]
      rfl
    · rw [hwgetNe w hw]
  have hbi : ∀ w : Nat, (((s.workers.set wid w2)[w]?).getD
      Worker.init).busyIndex = ((s.workers[w]?).getD
      Worker.init).busyIndex := by
    intro w
    by_cases hw : w = wid
    · subst hw
      rw [hwgetAt]
      rfl
    · rw [hwgetNe w hw]
  constructor
  case busyNodup => exact hI.busyNodup
  case idleNodup => exact hI.idleNodup
  case busyLt =>
    intro w hw
    show w < (s.workers.set wid w2).length
    rw [List.length_set]
    exact hI.busyLt w hw
  case idleLt =>
    intro w hw
    show w < (s.workers.set wid w2).length
    rw [List.length_set]
    exact hI.idleLt w hw
  case disj => exact hI.disj
  case busyIdx =>
    intro i h
    have h2 : i < s.busyThreads.length := h
    show (((s.workers.set wid w2)[s.busyThreads[i]]?).getD
      Worker.init).busyIndex = Int.ofNat i
    rw [hbi]
    exact hI.busyIdx i h2
  case notBusyIdx =>
    intro w hw
    show (((s.workers.set wid w2)[w]?).getD Worker.init).busyIndex = -1
    rw [hbi]
    exact hI.notBusyIdx w hw
  case idleRpc =>
    intro w hw
    have hw2 : w ≠ wid := by
      intro h2
      subst h2
      exact hI.disj w hbusy hw
    show (((s.workers.set wid w2)[w]?).getD Worker.init).rpc = none
    rw [hwgetNe w hw2]
    exact hI.idleRpc w hw
  case busySvc =>
    intro w hw
    obtain ⟨t2, info2, h3, h4⟩ := hI.busySvc w hw
    refine ⟨t2, info2, ?_, h4⟩
    show (((s.workers.set wid w2)[w]?).getD Worker.init).serviceInfo = some t2
    rw [hsvc]
    exact h3
  case counts =>
    intro t2 info2 h2
    have h4 : sget s t2 = some info2 := h2
    show info2.requestsRunning =
      boundCount s.busyThreads (s.workers.set wid w2) t2
    rw [boundCount_congr _ _ _ (fun w _ => hsvc w) t2]
    exact hI.counts t2 info2 h4
  case capped => exact hI.capped
  case queueFull => exact hI.queueFull
  case svcLen => exact hI.svcLen
  case own =>
    intro id
    have hsl := slotsCount_set s.workers wid w2 hwlt id
    have h0 := hI.own id
    have hx := hocc id
    have hbr : slotCount ((s.workers[wid]?).getD Worker.init) id =
      slotCount (wget s wid) id := rfl
    simp only [occ, liveOcc] at h0
    show queuesCount s.services id + slotsCount (s.workers.set wid w2) id +
      replyCount (s.replyLog ++ extra) id + testCount s.testRpcs id ≤ 1
    omega
  case admitLive =>
    intro p hp
    have h3 := hI.admitLive p hp
    simp only [liveOcc] at h3
    have hsl := slotsCount_set s.workers wid w2 hwlt p.2
    have hx := hocc p.2
    have hbr : slotCount ((s.workers[wid]?).getD Worker.init) p.2 =
      slotCount (wget s wid) p.2 := rfl
    show 1 ≤ queuesCount s.services p.2 +
      slotsCount (s.workers.set wid w2) p.2 +
      replyCount (s.replyLog ++ extra) p.2
    omega
  case fifo => exact hI.fifo

lemma inv_pollReply (s : SMState) (wid : Nat) (hI : Inv s)
    (hbusy : wid ∈ s.busyThreads) : Inv (pollReply s wid) := by
  rcases hslot : (wget s wid).rpc with _ | item
  · rw [pollReply_none s wid hslot]
    exact hI
  · cases item with
    | workerExit =>
        rw [pollReply_sentinel s wid hslot]
        have h2 := inv_clearSlot s wid [] hI hbusy (by
          intro id
          simp [slotCount, hslot])
        simpa using h2
    | req r =>
        rw [pollReply_req s wid r hslot]
        exact inv_clearSlot s wid [(r.reqId, none)] hI hbusy (by
          intro id
          rw [replyCount_append]
          simp only [slotCount, hslot]
          by_cases he : r.reqId = id
          · simp only [if_pos he]
            omega
          · simp only [if_neg he]
            omega)

/-! ### Swap-with-back removal helpers -/

lemma countP_dropLast_add {α : Type _} (l : List α) (p : α → Bool) (d : α)
    (h : l ≠ []) :
    l.dropLast.countP p + (if p (l.getLastD d) then 1 else 0) =
      l.countP p := by
  conv_rhs => rw [← dropLast_concat_getLastD l d h]
  rw [List.countP_append]
  have h2 : List.countP p [l.getLastD d] =
      if p (l.getLastD d) then 1 else 0 := by
    simp [List.countP_cons]
  omega

lemma set_ne_nil {α : Type _} (l : List α) (i : Nat) (b : α) (h : l ≠ []) :
    l.set i b ≠ [] := by
  intro h2
  have h3 := congrArg List.length h2
  rw [List.length_set] at h3
  exact h (List.length_eq_zero.mp h3)

lemma getLastD_set_ne {α : Type _} (l : List α) (i : Nat) (b d : α)
    (h : i < l.length) (hne : i ≠ l.length - 1) :
    (l.set i b).getLastD d = l.getLastD d := by
  have hl : l ≠ [] := by
    intro h2
    subst h2
    simp at h
  have hl2 : l.set i b ≠ [] := set_ne_nil l i b hl
  have h3 : (l.set i b).length = l.length := List.length_set l i b
  have hlp : 0 < l.length := List.length_pos.mpr hl
  have h4 : (l.set i b).length - 1 < (l.set i b).length := by
    rw [h3]
    omega
  have h5 : l.length - 1 < l.length := by omega
  rw [getLastD_eq_getElem _ d hl2 h4, getLastD_eq_getElem _ d hl h5]
  rw [List.getElem_set]
  rw [if_neg (by omega)]
  congr 1
  omega

lemma swapRemove_countP (l : List Nat) (i : Nat) (p : Nat → Bool)
    (h : i < l.length) (hne : i ≠ l.length - 1) :
    ((l.set i (l.getLastD 0)).dropLast).countP p +
      (if p l[i] then 1 else 0) = l.countP p := by
  have hl : l ≠ [] := by
    intro h2
    subst h2
    simp at h
  have h1 := countP_dropLast_add (l.set i (l.getLastD 0)) p 0
    (set_ne_nil l i _ hl)
  rw [getLastD_set_ne l i _ 0 h hne] at h1
  have h2 := countP_set_add p l i (l.getLastD 0) h
  omega

lemma swapRemove_count (l : List Nat) (i : Nat) (x : Nat)
    (h : i < l.length) (hne : i ≠ l.length - 1) :
    ((l.set i (l.getLastD 0)).dropLast).count x +
      (if l[i] = x then 1 else 0) = l.count x := by
  have h1 := swapRemove_countP l i (fun y => y == x) h hne
  simp only [beq_iff_eq] at h1
  rw [List.count_eq_countP, List.count_eq_countP]
  exact h1

lemma swapRemove_nodup (l : List Nat) (i : Nat)
    (h : i < l.length) (hne : i ≠ l.length - 1) (hnd : l.Nodup) :
    ((l.set i (l.getLastD 0)).dropLast).Nodup := by
  rw [List.nodup_iff_count_le_one]
  intro x
  have h1 := swapRemove_count l i x h hne
  have h2 := List.nodup_iff_count_le_one.mp hnd x
  omega

lemma swapRemove_mem (l : List Nat) (i : Nat) (x : Nat)
    (h : i < l.length) (hne : i ≠ l.length - 1) (hnd : l.Nodup) :
    x ∈ (l.set i (l.getLastD 0)).dropLast ↔ (x ∈ l ∧ x ≠ l[i]) := by
  have h1 := swapRemove_count l i x h hne
  have h2 := List.nodup_iff_count_le_one.mp hnd x
  constructor
  · intro hmem
    have h3 : 0 < ((l.set i (l.getLastD 0)).dropLast).count x :=
      List.count_pos_iff.mpr hmem
    constructor
    · exact List.count_pos_iff.mp (by omega)
    · intro h4
      subst h4
      have h5 : 0 < l.count l[i] :=
        List.count_pos_iff.mpr (List.getElem_mem h)
      rw [if_pos rfl] at h1
      omega
  · intro ⟨hmem, hx⟩
    have h3 : 0 < l.count x := List.count_pos_iff.mpr hmem
    rw [if_neg (fun h4 => hx h4.symm)] at h1
    exact List.count_pos_iff.mp (by omega)

lemma swapRemove_getElem (l : List Nat) (i j : Nat) (_h : i < l.length)
    (hj : j < ((l.set i (l.getLastD 0)).dropLast).length)
    (hj2 : j < l.length) :
    ((l.set i (l.getLastD 0)).dropLast)[j] =
      if i = j then l.getLastD 0
      else l[j] := by
  rw [List.getElem_dropLast, List.getElem_set]

lemma inv_pollFinish_pickup (s : SMState) (wid tag : Nat)
    (info : ServiceInfo) (r : ServerRpc) (rest : List ServerRpc)
    (hI : Inv s) (hbusy : wid ∈ s.busyThreads)
    (hslot : (wget s wid).rpc = none)
    (htag : (wget s wid).serviceInfo = some tag)
    (hs : sget s tag = some info)
    (hq : info.waitingRpcs = r :: rest) :
    Inv { s with
            workers := s.workers.set wid
              { wget s wid with rpc := some (WorkItem.req r)
                                state := WState.WORKING }
            handoffLog := s.handoffLog ++ [(tag, r.reqId)]
            services := s.services.set tag
              (some { info with waitingRpcs := rest }) } := by
  have hwlt : wid < s.workers.length := hI.busyLt wid hbusy
  have hlt : tag < s.services.length := by
    have h2 : sget s tag ≠ none := by rw [hs]; simp
    by_contra h3
    have h4 : s.services.length ≤ tag := Nat.le_of_not_lt h3
    exact h2 (getD_eq_default _ _ _ h4)
  set w2 : Worker :=
    { wget s wid with rpc := some (WorkItem.req r), state := WState.WORKING }
    with hw2
  have hwgetAt : (((s.workers.set wid w2)[wid]?).getD Worker.init) = w2 :=
    getD_set_self _ _ _ _ hwlt
  have hwgetNe : ∀ w : Nat, w ≠ wid →
      (((s.workers.set wid w2)[w]?).getD Worker.init) =
        ((s.workers[w]?).getD Worker.init) := by
    intro w hw
    exact getD_set_ne s.workers w2 Worker.init (fun h2 => hw h2.symm)
  have hsvc : ∀ w : Nat, (((s.workers.set wid w2)[w]?).getD
      Worker.init).serviceInfo = ((s.workers[w]?).getD
      Worker.init).serviceInfo := by
    intro w
    by_cases hw : w = wid
    · subst hw
      rw [hwgetAt]
      rfl
    · rw [hwgetNe w hw]
  have hbi : ∀ w : Nat, (((s.workers.set wid w2)[w]?).getD
      Worker.init).busyIndex = ((s.workers[w]?).getD
      Worker.init).busyIndex := by
    intro w
    by_cases hw : w = wid
    · subst hw
      rw [hwgetAt]
      rfl
    · rw [hwgetNe w hw]
  constructor
  case busyNodup => exact hI.busyNodup
  case idleNodup => exact hI.idleNodup
  case busyLt =>
    intro w hw
    show w < (s.workers.set wid w2).length
    rw [List.length_set]
    exact hI.busyLt w hw
  case idleLt =>
    intro w hw
    show w < (s.workers.set wid w2).length
    rw [List.length_set]
    exact hI.idleLt w hw
  case disj => exact hI.disj
  case busyIdx =>
    intro i h
    have h2 : i < s.busyThreads.length := h
    show (((s.workers.set wid w2)[s.busyThreads[i]]?).getD
      Worker.init).busyIndex = Int.ofNat i
    rw [hbi]
    exact hI.busyIdx i h2
  case notBusyIdx =>
    intro w hw
    show (((s.workers.set wid w2)[w]?).getD Worker.init).busyIndex = -1
    rw [hbi]
    exact hI.notBusyIdx w hw
  case idleRpc =>
    intro w hw
    have hw2 : w ≠ wid := by
      intro h2
      subst h2
      exact hI.disj w hbusy hw
    show (((s.workers.set wid w2)[w]?).getD Worker.init).rpc = none
    rw [hwgetNe w hw2]
    exact hI.idleRpc w hw
  case busySvc =>
    intro w hw
    obtain ⟨t2, info2, h3, h4⟩ := hI.busySvc w hw
    by_cases he : tag = t2
    · subst he
      refine ⟨tag, { info with waitingRpcs := rest }, ?_, ?_⟩
      · show (((s.workers.set wid w2)[w]?).getD Worker.init).serviceInfo =
          some tag
        rw [hsvc]
        exact h3
      · exact getD_set_self _ _ _ _ hlt
    · refine ⟨t2, info2, ?_, ?_⟩
      · show (((s.workers.set wid w2)[w]?).getD Worker.init).serviceInfo =
          some t2
        rw [hsvc]
        exact h3
      · show ((s.services.set tag _)[t2]?).getD none = _
        rw [getD_set_ne _ _ _ he]
        exact h4
  case counts =>
    intro t2 info2 h2
    have hbc : boundCount s.busyThreads (s.workers.set wid w2) t2 =
        boundCount s.busyThreads s.workers t2 :=
      boundCount_congr _ _ _ (fun w _ => hsvc w) t2
    by_cases he : tag = t2
    · subst he
      have h5 : some ({ info with waitingRpcs := rest } : ServiceInfo) =
          some info2 := by
        rw [← h2]
        exact (getD_set_self _ _ _ _ hlt).symm
      injection h5 with h6
      rw [← h6]
      show info.requestsRunning =
        boundCount s.busyThreads (s.workers.set wid w2) tag
      rw [hbc]
      exact hI.counts tag info hs
    · have h4 : sget s t2 = some info2 := by
        have h5 : ((s.services.set tag _)[t2]?).getD none = some info2 := h2
        rw [getD_set_ne _ _ _ he] at h5
        exact h5
      show info2.requestsRunning =
        boundCount s.busyThreads (s.workers.set wid w2) t2
      rw [hbc]
      exact hI.counts t2 info2 h4
  case capped =>
    intro t2 info2 h2
    by_cases he : tag = t2
    · subst he
      have h5 : some ({ info with waitingRpcs := rest } : ServiceInfo) =
          some info2 := by
        rw [← h2]
        exact (getD_set_self _ _ _ _ hlt).symm
      injection h5 with h6
      rw [← h6]
      exact hI.capped tag info hs
    · have h4 : sget s t2 = some info2 := by
        have h5 : ((s.services.set tag _)[t2]?).getD none = some info2 := h2
        rw [getD_set_ne _ _ _ he] at h5
        exact h5
      exact hI.capped t2 info2 h4
  case queueFull =>
    intro t2 info2 h2 hne
    by_cases he : tag = t2
    · subst he
      have h5 : some ({ info with waitingRpcs := rest } : ServiceInfo) =
          some info2 := by
        rw [← h2]
        exact (getD_set_self _ _ _ _ hlt).symm
      injection h5 with h6
      rw [← h6]
      show info.requestsRunning = info.maxThreads
      exact hI.queueFull tag info hs (by rw [hq]; simp)
    · have h4 : sget s t2 = some info2 := by
        have h5 : ((s.services.set tag _)[t2]?).getD none = some info2 := h2
        rw [getD_set_ne _ _ _ he] at h5
        exact h5
      exact hI.queueFull t2 info2 h4 hne
  case svcLen =>
    show (s.services.set tag _).length = MAX_SERVICE + 1
    rw [List.length_set]
    exact hI.svcLen
  case own =>
    intro id
    have hqc := queuesCount_set s.services tag
      (some { info with waitingRpcs := rest }) hlt id
    have h5 : ((s.services[tag]?).getD none) = some info := hs
    rw [h5] at hqc
    have hqq : qCount (some info) id =
        (if r.reqId = id then 1 else 0) +
        qCount (some { info with waitingRpcs := rest }) id := by
      simp only [qCount, hq, List.countP_cons]
      by_cases he : r.reqId = id
      · simp [he]
        omega
      · simp [he]
    have hsl := slotsCount_set s.workers wid w2 hwlt id
    have hsl0 : slotCount ((s.workers[wid]?).getD Worker.init) id = 0 := by
      have h7 : ((s.workers[wid]?).getD Worker.init).rpc = none := hslot
      simp [slotCount, h7]
    have hslF : slotCount w2 id = (if r.reqId = id then 1 else 0) := rfl
    have h0 := hI.own id
    simp only [occ, liveOcc] at h0
    show queuesCount (s.services.set tag _) id +
      slotsCount (s.workers.set wid w2) id +
      replyCount s.replyLog id + testCount s.testRpcs id ≤ 1
    omega
  case admitLive =>
    intro p hp
    have hqc := queuesCount_set s.services tag
      (some { info with waitingRpcs := rest }) hlt p.2
    have h5 : ((s.services[tag]?).getD none) = some info := hs
    rw [h5] at hqc
    have hqq : qCount (some info) p.2 =
        (if r.reqId = p.2 then 1 else 0) +
        qCount (some { info with waitingRpcs := rest }) p.2 := by
      simp only [qCount, hq, List.countP_cons]
      by_cases he : r.reqId = p.2
      · simp [he]
        omega
      · simp [he]
    have hsl := slotsCount_set s.workers wid w2 hwlt p.2
    have hsl0 : slotCount ((s.workers[wid]?).getD Worker.init) p.2 = 0 := by
      have h7 : ((s.workers[wid]?).getD Worker.init).rpc = none := hslot
      simp [slotCount, h7]
    have hslF : slotCount w2 p.2 = (if r.reqId = p.2 then 1 else 0) := rfl
    have h3 := hI.admitLive p hp
    simp only [liveOcc] at h3
    show 1 ≤ queuesCount (s.services.set tag _) p.2 +
      slotsCount (s.workers.set wid w2) p.2 + replyCount s.replyLog p.2
    omega
  case fifo =>
    intro t2
    show logFor (s.handoffLog ++ [(tag, r.reqId)]) t2 ++
      queueIds (s.services.set tag _) t2 = logFor s.admitLog t2
    rw [logFor_append]
    by_cases he : tag = t2
    · subst he
      have hq1 : queueIds (s.services.set tag
          (some { info with waitingRpcs := rest })) tag =
          rest.map ServerRpc.reqId := by
        simp [queueIds, getD_set_self _ _ _ _ hlt]
      have hq3 : queueIds s.services tag =
          r.reqId :: rest.map ServerRpc.reqId := by
        have h6 : ((s.services[tag]?).getD none) = some info := hs
        simp [queueIds, h6, hq]
      have h7 := hI.fifo tag
      rw [hq3] at h7
      rw [hq1, if_pos rfl, List.append_assoc, List.singleton_append]
      exact h7
    · have hq1 : queueIds (s.services.set tag
          (some { info with waitingRpcs := rest })) t2 =
          queueIds s.services t2 := by
        simp [queueIds, getD_set_ne _ _ _ he]
      rw [hq1, if_neg he, List.append_nil]
      exact hI.fifo t2

lemma inv_pollFinish_release_last (s : SMState) (wid tag : Nat)
    (info : ServiceInfo) (hI : Inv s) (hbusy : wid ∈ s.busyThreads)
    (hslot : (wget s wid).rpc = none)
    (htag : (wget s wid).serviceInfo = some tag)
    (hs : sget s tag = some info)
    (hq : info.waitingRpcs = [])
    (hback : wid = s.busyThreads.getLastD 0) :
    Inv { s with
            busyThreads := s.busyThreads.dropLast
            workers := s.workers.set wid { wget s wid with busyIndex := -1 }
            idleThreads := s.idleThreads ++ [wid]
            services := s.services.set tag
              (some { info with
                        requestsRunning := info.requestsRunning - 1 }) } := by
  have hwlt : wid < s.workers.length := hI.busyLt wid hbusy
  have hbl : s.busyThreads ≠ [] := List.ne_nil_of_mem hbusy
  have hlt : tag < s.services.length := by
    have h2 : sget s tag ≠ none := by rw [hs]; simp
    by_contra h3
    exact h2 (getD_eq_default _ _ _ (Nat.le_of_not_lt h3))
  have hdecomp : s.busyThreads.dropLast ++ [wid] = s.busyThreads := by
    rw [hback]
    exact dropLast_concat_getLastD _ _ hbl
  have hwidDrop : wid ∉ s.busyThreads.dropLast := by
    rw [hback]
    exact getLastD_not_mem_dropLast _ _ hI.busyNodup hbl
  have hdropSub : ∀ w ∈ s.busyThreads.dropLast, w ∈ s.busyThreads :=
    fun w hw => (List.dropLast_sublist s.busyThreads).subset hw
  set w2 : Worker := { wget s wid with busyIndex := -1 } with hw2
  have hwgetAt : (((s.workers.set wid w2)[wid]?).getD Worker.init) = w2 :=
    getD_set_self _ _ _ _ hwlt
  have hwgetNe : ∀ w : Nat, w ≠ wid →
      (((s.workers.set wid w2)[w]?).getD Worker.init) =
        ((s.workers[w]?).getD Worker.init) := by
    intro w hw
    exact getD_set_ne s.workers w2 Worker.init (fun h2 => hw h2.symm)
  have hsvc : ∀ w : Nat, (((s.workers.set wid w2)[w]?).getD
      Worker.init).serviceInfo = ((s.workers[w]?).getD
      Worker.init).serviceInfo := by
    intro w
    by_cases hw : w = wid
    · subst hw
      rw [hwgetAt]
      rfl
    · rw [hwgetNe w hw]
  have hcnt : ∀ t2, boundCount s.busyThreads s.workers t2 =
      boundCount s.busyThreads.dropLast (s.workers.set wid w2) t2 +
      (if (some tag : Option Nat) = some t2 then 1 else 0) := by
    intro t2
    have h3 : boundCount s.busyThreads.dropLast (s.workers.set wid w2) t2 =
        boundCount s.busyThreads.dropLast s.workers t2 :=
      boundCount_congr _ _ _ (fun w _ => hsvc w) t2
    rw [h3]
    conv_lhs => rw [boundCount, ← hdecomp, List.countP_append]
    rw [boundCount]
    congr 1
    have h4 : ((s.workers[wid]?).getD Worker.init).serviceInfo =
        some tag := htag
    by_cases he : tag = t2
    · subst he
      simp [List.countP_cons, h4]
    · rw [if_neg (by simpa using he)]
      simp [List.countP_cons, h4]
      simpa using he
  have hrr : info.requestsRunning = boundCount s.busyThreads s.workers tag :=
    hI.counts tag info hs
  have hrr1 : 1 ≤ info.requestsRunning := by
    rw [hrr, hcnt tag, if_pos rfl]
    omega
  constructor
  case busyNodup =>
    show s.busyThreads.dropLast.Nodup
    exact (List.dropLast_sublist s.busyThreads).nodup hI.busyNodup
  case idleNodup =>
    show (s.idleThreads ++ [wid]).Nodup
    refine List.Nodup.append hI.idleNodup (by simp) ?_
    intro w hw hw2
    rw [List.mem_singleton] at hw2
    subst hw2
    exact hI.disj w hbusy hw
  case busyLt =>
    intro w hw
    show w < (s.workers.set wid w2).length
    rw [List.length_set]
    exact hI.busyLt w (hdropSub w hw)
  case idleLt =>
    intro w hw
    show w < (s.workers.set wid w2).length
    rw [List.length_set]
    rcases List.mem_append.mp hw with h2 | h2
    · exact hI.idleLt w h2
    · rw [List.mem_singleton] at h2
      subst h2
      exact hwlt
  case disj =>
    intro w hw hw2
    rcases List.mem_append.mp hw2 with h2 | h2
    · exact hI.disj w (hdropSub w hw) h2
    · rw [List.mem_singleton] at h2
      subst h2
      exact hwidDrop hw
  case busyIdx =>
    intro i h
    have h2 : i < s.busyThreads.dropLast.length := h
    have h3 : i < s.busyThreads.length := by
      have := List.length_dropLast s.busyThreads
      omega
    have e1 : s.busyThreads.dropLast[i] = s.busyThreads[i] :=
      List.getElem_dropLast _ _ h2
    have hne : s.busyThreads[i] ≠ wid := by
      intro h4
      have h5 : wid ∈ s.busyThreads.dropLast := by
        rw [← h4, ← e1]
        exact List.getElem_mem h2
      exact hwidDrop h5
    show (((s.workers.set wid w2)[s.busyThreads.dropLast[i]]?).getD
      Worker.init).busyIndex = Int.ofNat i
    rw [e1, hwgetNe _ hne]
    exact hI.busyIdx i h3
  case notBusyIdx =>
    intro w hw
    by_cases hww : w = wid
    · subst hww
      show (((s.workers.set w w2)[w]?).getD Worker.init).busyIndex = -1
      rw [hwgetAt]
    · have hw3 : w ∉ s.busyThreads := by
        intro h4
        rw [← hdecomp] at h4
        rcases List.mem_append.mp h4 with h5 | h5
        · exact hw h5
        · rw [List.mem_singleton] at h5
          exact hww h5
      show (((s.workers.set wid w2)[w]?).getD Worker.init).busyIndex = -1
      rw [hwgetNe _ hww]
      exact hI.notBusyIdx w hw3
  case idleRpc =>
    intro w hw
    rcases List.mem_append.mp hw with h2 | h2
    · have hw2 : w ≠ wid := by
        intro h3
        subst h3
        exact hI.disj w hbusy h2
      show (((s.workers.set wid w2)[w]?).getD Worker.init).rpc = none
      rw [hwgetNe _ hw2]
      exact hI.idleRpc w h2
    · rw [List.mem_singleton] at h2
      subst h2
      show (((s.workers.set w w2)[w]?).getD Worker.init).rpc = none
      rw [hwgetAt]
      exact hslot
  case busySvc =>
    intro w hw
    obtain ⟨t2, info2, h3, h4⟩ := hI.busySvc w (hdropSub w hw)
    by_cases he : tag = t2
    · subst he
      refine ⟨tag, { info with
          requestsRunning := info.requestsRunning - 1 }, ?_, ?_⟩
      · show (((s.workers.set wid w2)[w]?).getD Worker.init).serviceInfo =
          some tag
        rw [hsvc]
        exact h3
      · exact getD_set_self _ _ _ _ hlt
    · refine ⟨t2, info2, ?_, ?_⟩
      · show (((s.workers.set wid w2)[w]?).getD Worker.init).serviceInfo =
          some t2
        rw [hsvc]
        exact h3
      · show ((s.services.set tag _)[t2]?).getD none = _
        rw [getD_set_ne _ _ _ he]
        exact h4
  case counts =>
    intro t2 info2 h2
    by_cases he : tag = t2
    · subst he
      have h5 : some ({ info with
          requestsRunning := info.requestsRunning - 1 } : ServiceInfo) =
          some info2 := by
        rw [← h2]
        exact (getD_set_self _ _ _ _ hlt).symm
      injection h5 with h6
      rw [← h6]
      show info.requestsRunning - 1 =
        boundCount s.busyThreads.dropLast (s.workers.set wid w2) tag
      have h7 := hcnt tag
      rw [if_pos rfl] at h7
      omega
    · have h4 : sget s t2 = some info2 := by
        have h5 : ((s.services.set tag _)[t2]?).getD none = some info2 := h2
        rw [getD_set_ne _ _ _ he] at h5
        exact h5
      show info2.requestsRunning =
        boundCount s.busyThreads.dropLast (s.workers.set wid w2) t2
      have h7 := hcnt t2
      rw [if_neg (by simpa using he)] at h7
      rw [hI.counts t2 info2 h4]
      omega
  case capped =>
    intro t2 info2 h2
    by_cases he : tag = t2
    · subst he
      have h5 : some ({ info with
          requestsRunning := info.requestsRunning - 1 } : ServiceInfo) =
          some info2 := by
        rw [← h2]
        exact (getD_set_self _ _ _ _ hlt).symm
      injection h5 with h6
      rw [← h6]
      have := hI.capped tag info hs
      show info.requestsRunning - 1 ≤ info.maxThreads
      omega
    · have h4 : sget s t2 = some info2 := by
        have h5 : ((s.services.set tag _)[t2]?).getD none = some info2 := h2
        rw [getD_set_ne _ _ _ he] at h5
        exact h5
      exact hI.capped t2 info2 h4
  case queueFull =>
    intro t2 info2 h2 hne
    by_cases he : tag = t2
    · subst he
      have h5 : some ({ info with
          requestsRunning := info.requestsRunning - 1 } : ServiceInfo) =
          some info2 := by
        rw [← h2]
        exact (getD_set_self _ _ _ _ hlt).symm
      injection h5 with h6
      rw [← h6] at hne
      exact absurd hq hne
    · have h4 : sget s t2 = some info2 := by
        have h5 : ((s.services.set tag _)[t2]?).getD none = some info2 := h2
        rw [getD_set_ne _ _ _ he] at h5
        exact h5
      exact hI.queueFull t2 info2 h4 hne
  case svcLen =>
    show (s.services.set tag _).length = MAX_SERVICE + 1
    rw [List.length_set]
    exact hI.svcLen
  case own =>
    intro id
    have hqc := queuesCount_set s.services tag
      (some { info with requestsRunning := info.requestsRunning - 1 })
      hlt id
    have h5 : ((s.services[tag]?).getD none) = some info := hs
    rw [h5] at hqc
    have hqq : qCount (some { info with
        requestsRunning := info.requestsRunning - 1 }) id =
        qCount (some info) id := rfl
    have hsl : slotsCount (s.workers.set wid w2) id =
        slotsCount s.workers id :=
      slotsCount_set_stable s.workers wid w2 rfl id
    have h0 := hI.own id
    simp only [occ, liveOcc] at h0
    show queuesCount (s.services.set tag _) id +
      slotsCount (s.workers.set wid w2) id +
      replyCount s.replyLog id + testCount s.testRpcs id ≤ 1
    rw [hsl]
    omega
  case admitLive =>
    intro p hp
    have hqc := queuesCount_set s.services tag
      (some { info with requestsRunning := info.requestsRunning - 1 })
      hlt p.2
    have h5 : ((s.services[tag]?).getD none) = some info := hs
    rw [h5] at hqc
    have hqq : qCount (some { info with
        requestsRunning := info.requestsRunning - 1 }) p.2 =
        qCount (some info) p.2 := rfl
    have hsl : slotsCount (s.workers.set wid w2) p.2 =
        slotsCount s.workers p.2 :=
      slotsCount_set_stable s.workers wid w2 rfl p.2
    have h3 := hI.admitLive p hp
    simp only [liveOcc] at h3
    show 1 ≤ queuesCount (s.services.set tag _) p.2 +
      slotsCount (s.workers.set wid w2) p.2 + replyCount s.replyLog p.2
    rw [hsl]
    omega
  case fifo =>
    intro t2
    show logFor s.handoffLog t2 ++ queueIds (s.services.set tag _) t2 =
      logFor s.admitLog t2
    by_cases he : tag = t2
    · subst he
      have hq1 : queueIds (s.services.set tag
          (some { info with
            requestsRunning := info.requestsRunning - 1 })) tag = [] := by
        simp [queueIds, getD_set_self _ _ _ _ hlt, hq]
      have hq3 : queueIds s.services tag = [] := by
        have h6 : ((s.services[tag]?).getD none) = some info := hs
        simp [queueIds, h6, hq]
      have h7 := hI.fifo tag
      rw [hq3] at h7
      rw [hq1]
      exact h7
    · have hq1 : queueIds (s.services.set tag
          (some { info with
            requestsRunning := info.requestsRunning - 1 })) t2 =
          queueIds s.services t2 := by
        simp [queueIds, getD_set_ne _ _ _ he]
      rw [hq1]
      exact hI.fifo t2

lemma inv_pollFinish_release_swap (s : SMState) (wid tag i : Nat)
    (info : ServiceInfo) (hI : Inv s)
    (hilt : i < s.busyThreads.length)
    (hie : s.busyThreads[i] = wid)
    (hslot : (wget s wid).rpc = none)
    (htag : (wget s wid).serviceInfo = some tag)
    (hs : sget s tag = some info)
    (hq : info.waitingRpcs = [])
    (hne : wid ≠ s.busyThreads.getLastD 0) :
    Inv { s with
            busyThreads :=
              (s.busyThreads.set i (s.busyThreads.getLastD 0)).dropLast
            workers := (s.workers.set (s.busyThreads.getLastD 0)
              { wget s (s.busyThreads.getLastD 0) with
                  busyIndex := Int.ofNat i }).set wid
              { wget s wid with busyIndex := -1 }
            idleThreads := s.idleThreads ++ [wid]
            services := s.services.set tag
              (some { info with
                        requestsRunning := info.requestsRunning - 1 }) } := by
  set b := s.busyThreads.getLastD 0 with hb
  set X : Worker := { wget s b with busyIndex := Int.ofNat i } with hX
  set Y : Worker := { wget s wid with busyIndex := -1 } with hY
  have hbusy : wid ∈ s.busyThreads := hie ▸ List.getElem_mem hilt
  have hbl : s.busyThreads ≠ [] := List.ne_nil_of_mem hbusy
  have hwlt : wid < s.workers.length := hI.busyLt wid hbusy
  have hbmem : b ∈ s.busyThreads := getLastD_mem _ _ hbl
  have hblt : b < s.workers.length := hI.busyLt b hbmem
  have hlt : tag < s.services.length := by
    have h2 : sget s tag ≠ none := by rw [hs]; simp
    by_contra h3
    exact h2 (getD_eq_default _ _ _ (Nat.le_of_not_lt h3))
  have hlb : s.busyThreads.length - 1 < s.busyThreads.length :=
    Nat.sub_lt (List.length_pos.mpr hbl) Nat.one_pos
  have hbeq : b = s.busyThreads[s.busyThreads.length - 1] :=
    getLastD_eq_getElem _ _ hbl hlb
  have hine : i ≠ s.busyThreads.length - 1 := by
    intro h2
    apply hne
    rw [← hie, hbeq]
    congr 1
  have hlen2 : ((s.busyThreads.set i b).dropLast).length =
      s.busyThreads.length - 1 := by simp
  have hwgetMid : (((s.workers.set b X)[wid]?).getD Worker.init) =
      ((s.workers[wid]?).getD Worker.init) :=
    getD_set_ne s.workers X Worker.init (fun h2 => hne h2.symm)
  have hwgetW : ((((s.workers.set b X).set wid Y)[wid]?).getD
      Worker.init) = Y := by
    apply getD_set_self
    rw [List.length_set]
    exact hwlt
  have hwgetB : ((((s.workers.set b X).set wid Y)[b]?).getD
      Worker.init) = X := by
    rw [getD_set_ne _ Y Worker.init hne]
    exact getD_set_self _ _ _ _ hblt
  have hwgetO : ∀ w : Nat, w ≠ wid → w ≠ b →
      ((((s.workers.set b X).set wid Y)[w]?).getD Worker.init) =
        ((s.workers[w]?).getD Worker.init) := by
    intro w hw1 hw2
    rw [getD_set_ne _ Y Worker.init (fun h2 => hw1 h2.symm),
      getD_set_ne _ X Worker.init (fun h2 => hw2 h2.symm)]
  have hsvc : ∀ w : Nat, ((((s.workers.set b X).set wid Y)[w]?).getD
      Worker.init).serviceInfo =
      ((s.workers[w]?).getD Worker.init).serviceInfo := by
    intro w
    by_cases hw1 : w = wid
    · subst hw1
      rw [hwgetW]
      rfl
    · by_cases hw2 : w = b
      · subst hw2
        rw [hwgetB]
        rfl
      · rw [hwgetO w hw1 hw2]
  have hcnt : ∀ t2, boundCount ((s.busyThreads.set i b).dropLast)
      ((s.workers.set b X).set wid Y) t2 +
      (if (some tag : Option Nat) = some t2 then 1 else 0) =
      boundCount s.busyThreads s.workers t2 := by
    intro t2
    have h3 : boundCount ((s.busyThreads.set i b).dropLast)
        ((s.workers.set b X).set wid Y) t2 =
        boundCount ((s.busyThreads.set i b).dropLast) s.workers t2 :=
      boundCount_congr _ _ _ (fun w _ => hsvc w) t2
    rw [h3]
    have h4 := swapRemove_countP s.busyThreads i
      (fun w => ((s.workers[w]?).getD Worker.init).serviceInfo == some t2)
      hilt hine
    rw [hie] at h4
    have h5 : ((s.workers[wid]?).getD Worker.init).serviceInfo =
        some tag := htag
    rw [← hb] at h4
    rw [boundCount, boundCount]
    simp only [] at h4
    by_cases he : tag = t2
    · subst he
      rw [if_pos rfl]
      have h6 : (((s.workers[wid]?).getD Worker.init).serviceInfo ==
          some tag) = true := by simp [h5]
      simp only [h6] at h4
      simpa using h4
    · rw [if_neg (by simpa using he)]
      have h6 : (((s.workers[wid]?).getD Worker.init).serviceInfo ==
          some t2) = false := by simp [h5]; exact he
      simp only [h6] at h4
      simpa using h4
  have hrr : info.requestsRunning = boundCount s.busyThreads s.workers tag :=
    hI.counts tag info hs
  have hrr1 : 1 ≤ info.requestsRunning := by
    rw [hrr, ← hcnt tag, if_pos rfl]
    omega
  constructor
  case busyNodup =>
    show ((s.busyThreads.set i b).dropLast).Nodup
    exact swapRemove_nodup s.busyThreads i hilt hine hI.busyNodup
  case idleNodup =>
    show (s.idleThreads ++ [wid]).Nodup
    refine List.Nodup.append hI.idleNodup (by simp) ?_
    intro w hw hw2
    rw [List.mem_singleton] at hw2
    subst hw2
    exact hI.disj w hbusy hw
  case busyLt =>
    intro w hw
    show w < ((s.workers.set b X).set wid Y).length
    rw [List.length_set, List.length_set]
    have h2 := (swapRemove_mem s.busyThreads i w hilt hine
      hI.busyNodup).mp hw
    exact hI.busyLt w h2.1
  case idleLt =>
    intro w hw
    show w < ((s.workers.set b X).set wid Y).length
    rw [List.length_set, List.length_set]
    rcases List.mem_append.mp hw with h2 | h2
    · exact hI.idleLt w h2
    · rw [List.mem_singleton] at h2
      subst h2
      exact hwlt
  case disj =>
    intro w hw hw2
    have h2 := (swapRemove_mem s.busyThreads i w hilt hine
      hI.busyNodup).mp hw
    rcases List.mem_append.mp hw2 with h3 | h3
    · exact hI.disj w h2.1 h3
    · rw [List.mem_singleton] at h3
      subst h3
      rw [hie] at h2
      exact h2.2 rfl
  case busyIdx =>
    intro j h
    have hj : j < s.busyThreads.length - 1 := by
      rw [← hlen2]
      exact h
    have hjlt : j < s.busyThreads.length := by omega
    have e1 := swapRemove_getElem s.busyThreads i j hilt h hjlt
    by_cases hij : i = j
    · show ((((s.workers.set b X).set wid Y)[((s.busyThreads.set i
        b).dropLast)[j]]?).getD Worker.init).busyIndex = Int.ofNat j
      rw [e1, if_pos hij, ← hb, hwgetB, ← hij]
    · show ((((s.workers.set b X).set wid Y)[((s.busyThreads.set i
        b).dropLast)[j]]?).getD Worker.init).busyIndex = Int.ofNat j
      rw [e1, if_neg hij]
      have hne1 : s.busyThreads[j] ≠ wid := by
        intro h4
        rw [← hie] at h4
        exact hij (hI.busyNodup.getElem_inj_iff.mp h4).symm
      have hne2 : s.busyThreads[j] ≠ b := by
        intro h4
        rw [hbeq] at h4
        have h5 := (hI.busyNodup.getElem_inj_iff.mp h4)
        omega
      rw [hwgetO _ hne1 hne2]
      exact hI.busyIdx j hjlt
  case notBusyIdx =>
    intro w hw
    by_cases hww : w = wid
    · show ((((s.workers.set b X).set wid Y)[w]?).getD
        Worker.init).busyIndex = -1
      rw [hww, hwgetW]
    · have h2 : w ∉ s.busyThreads := by
        intro h3
        exact hw ((swapRemove_mem s.busyThreads i w hilt hine
          hI.busyNodup).mpr ⟨h3, by rw [hie]; exact hww⟩)
      have hwb2 : w ≠ b := by
        intro h3
        subst h3
        exact h2 hbmem
      show ((((s.workers.set b X).set wid Y)[w]?).getD
        Worker.init).busyIndex = -1
      rw [hwgetO w hww hwb2]
      exact hI.notBusyIdx w h2
  case idleRpc =>
    intro w hw
    rcases List.mem_append.mp hw with h2 | h2
    · have hw1 : w ≠ wid := fun h3 => hI.disj wid hbusy (h3 ▸ h2)
      have hw2 : w ≠ b := fun h3 => hI.disj b hbmem (h3 ▸ h2)
      show ((((s.workers.set b X).set wid Y)[w]?).getD
        Worker.init).rpc = none
      rw [hwgetO w hw1 hw2]
      exact hI.idleRpc w h2
    · rw [List.mem_singleton] at h2
      show ((((s.workers.set b X).set wid Y)[w]?).getD
        Worker.init).rpc = none
      rw [h2, hwgetW]
      exact hslot
  case busySvc =>
    intro w hw
    have hmem := ((swapRemove_mem s.busyThreads i w hilt hine
      hI.busyNodup).mp hw).1
    obtain ⟨t2, info2, h3, h4⟩ := hI.busySvc w hmem
    by_cases he : tag = t2
    · subst he
      refine ⟨tag, { info with
          requestsRunning := info.requestsRunning - 1 }, ?_, ?_⟩
      · show ((((s.workers.set b X).set wid Y)[w]?).getD
          Worker.init).serviceInfo = some tag
        rw [hsvc]
        exact h3
      · exact getD_set_self _ _ _ _ hlt
    · refine ⟨t2, info2, ?_, ?_⟩
      · show ((((s.workers.set b X).set wid Y)[w]?).getD
          Worker.init).serviceInfo = some t2
        rw [hsvc]
        exact h3
      · show ((s.services.set tag _)[t2]?).getD none = _
        rw [getD_set_ne _ _ _ he]
        exact h4
  case counts =>
    intro t2 info2 h2
    by_cases he : tag = t2
    · subst he
      have h5 : some ({ info with
          requestsRunning := info.requestsRunning - 1 } : ServiceInfo) =
          some info2 := by
        rw [← h2]
        exact (getD_set_self _ _ _ _ hlt).symm
      injection h5 with h6
      rw [← h6]
      show info.requestsRunning - 1 =
        boundCount ((s.busyThreads.set i b).dropLast)
          ((s.workers.set b X).set wid Y) tag
      have h7 := hcnt tag
      rw [if_pos rfl] at h7
      omega
    · have h4 : sget s t2 = some info2 := by
        have h5 : ((s.services.set tag _)[t2]?).getD none = some info2 := h2
        rw [getD_set_ne _ _ _ he] at h5
        exact h5
      show info2.requestsRunning =
        boundCount ((s.busyThreads.set i b).dropLast)
          ((s.workers.set b X).set wid Y) t2
      have h7 := hcnt t2
      rw [if_neg (by simpa using he)] at h7
      rw [hI.counts t2 info2 h4]
      omega
  case capped =>
    intro t2 info2 h2
    by_cases he : tag = t2
    · subst he
      have h5 : some ({ info with
          requestsRunning := info.requestsRunning - 1 } : ServiceInfo) =
          some info2 := by
        rw [← h2]
        exact (getD_set_self _ _ _ _ hlt).symm
      injection h5 with h6
      rw [← h6]
      have := hI.capped tag info hs
      show info.requestsRunning - 1 ≤ info.maxThreads
      omega
    · have h4 : sget s t2 = some info2 := by
        have h5 : ((s.services.set tag _)[t2]?).getD none = some info2 := h2
        rw [getD_set_ne _ _ _ he] at h5
        exact h5
      exact hI.capped t2 info2 h4
  case queueFull =>
    intro t2 info2 h2 hne2
    by_cases he : tag = t2
    · subst he
      have h5 : some ({ info with
          requestsRunning := info.requestsRunning - 1 } : ServiceInfo) =
          some info2 := by
        rw [← h2]
        exact (getD_set_self _ _ _ _ hlt).symm
      injection h5 with h6
      rw [← h6] at hne2
      exact absurd hq hne2
    · have h4 : sget s t2 = some info2 := by
        have h5 : ((s.services.set tag _)[t2]?).getD none = some info2 := h2
        rw [getD_set_ne _ _ _ he] at h5
        exact h5
      exact hI.queueFull t2 info2 h4 hne2
  case svcLen =>
    show (s.services.set tag _).length = MAX_SERVICE + 1
    rw [List.length_set]
    exact hI.svcLen
  case own =>
    intro id
    have hqc := queuesCount_set s.services tag
      (some { info with requestsRunning := info.requestsRunning - 1 })
      hlt id
    have h5 : ((s.services[tag]?).getD none) = some info := hs
    rw [h5] at hqc
    have hqq : qCount (some { info with
        requestsRunning := info.requestsRunning - 1 }) id =
        qCount (some info) id := rfl
    have hsl1 : slotsCount ((s.workers.set b X).set wid Y) id =
        slotsCount (s.workers.set b X) id := by
      apply slotsCount_set_stable
      rw [hwgetMid]
      rfl
    have hsl2 : slotsCount (s.workers.set b X) id =
        slotsCount s.workers id :=
      slotsCount_set_stable s.workers b X rfl id
    have h0 := hI.own id
    simp only [occ, liveOcc] at h0
    show queuesCount (s.services.set tag _) id +
      slotsCount ((s.workers.set b X).set wid Y) id +
      replyCount s.replyLog id + testCount s.testRpcs id ≤ 1
    rw [hsl1, hsl2]
    omega
  case admitLive =>
    intro p hp
    have hqc := queuesCount_set s.services tag
      (some { info with requestsRunning := info.requestsRunning - 1 })
      hlt p.2
    have h5 : ((s.services[tag]?).getD none) = some info := hs
    rw [h5] at hqc
    have hqq : qCount (some { info with
        requestsRunning := info.requestsRunning - 1 }) p.2 =
        qCount (some info) p.2 := rfl
    have hsl1 : slotsCount ((s.workers.set b X).set wid Y) p.2 =
        slotsCount (s.workers.set b X) p.2 := by
      apply slotsCount_set_stable
      rw [hwgetMid]
      rfl
    have hsl2 : slotsCount (s.workers.set b X) p.2 =
        slotsCount s.workers p.2 :=
      slotsCount_set_stable s.workers b X rfl p.2
    have h3 := hI.admitLive p hp
    simp only [liveOcc] at h3
    show 1 ≤ queuesCount (s.services.set tag _) p.2 +
      slotsCount ((s.workers.set b X).set wid Y) p.2 +
      replyCount s.replyLog p.2
    rw [hsl1, hsl2]
    omega
  case fifo =>
    intro t2
    show logFor s.handoffLog t2 ++ queueIds (s.services.set tag _) t2 =
      logFor s.admitLog t2
    by_cases he : tag = t2
    · subst he
      have hq1 : queueIds (s.services.set tag
          (some { info with
            requestsRunning := info.requestsRunning - 1 })) tag = [] := by
        simp [queueIds, getD_set_self _ _ _ _ hlt, hq]
      have hq3 : queueIds s.services tag = [] := by
        have h6 : ((s.services[tag]?).getD none) = some info := hs
        simp [queueIds, h6, hq]
      have h7 := hI.fifo tag
      rw [hq3] at h7
      rw [hq1]
      exact h7
    · have hq1 : queueIds (s.services.set tag
          (some { info with
            requestsRunning := info.requestsRunning - 1 })) t2 =
          queueIds s.services t2 := by
        simp [queueIds, getD_set_ne _ _ _ he]
      rw [hq1]
      exact hI.fifo t2

lemma inv_pollFinish (s : SMState) (wid : Nat) (hI : Inv s)
    (hbusy : wid ∈ s.busyThreads) (hslot : (wget s wid).rpc = none) :
    Inv (pollFinish s wid) := by
  obtain ⟨tag, info, htag, hs⟩ := hI.busySvc wid hbusy
  rcases hq : info.waitingRpcs with _ | ⟨r, rest⟩
  · by_cases hback : wid = s.busyThreads.getLastD 0
    · rw [pollFinish_release_last s wid tag info htag hs hq hback]
      exact inv_pollFinish_release_last s wid tag info hI hbusy hslot htag
        hs hq hback
    · obtain ⟨i, hilt, hie⟩ := List.mem_iff_getElem.mp hbusy
      have hbi : (wget s wid).busyIndex = Int.ofNat i := by
        rw [← hie]
        exact hI.busyIdx i hilt
      have hnat : (wget s wid).busyIndex.toNat = i := by
        rw [hbi]
        rfl
      rw [pollFinish_release_swap s wid tag info htag hs hq hback, hnat, hbi]
      exact inv_pollFinish_release_swap s wid tag i info hI hilt hie hslot
        htag hs hq hback
  · rw [pollFinish_pickup s wid tag info r rest htag hs hq]
    exact inv_pollFinish_pickup s wid tag info r rest hI hbusy hslot htag
      hs hq

lemma pollReply_busyThreads (s : SMState) (wid : Nat) :
    (pollReply s wid).busyThreads = s.busyThreads := by
  rcases h : (wget s wid).rpc with _ | item
  · rw [pollReply_none s wid h]
  · cases item with
    | workerExit => rw [pollReply_sentinel s wid h]
    | req r => rw [pollReply_req s wid r h]

lemma pollReply_slot (s : SMState) (wid : Nat)
    (hlt : wid < s.workers.length) :
    (wget (pollReply s wid) wid).rpc = none := by
  rcases h : (wget s wid).rpc with _ | item
  · rw [pollReply_none s wid h]
    exact h
  · cases item with
    | workerExit =>
        rw [pollReply_sentinel s wid h]
        show (((s.workers.set wid _)[wid]?).getD Worker.init).rpc = none
        rw [getD_set_self _ _ _ _ hlt]
    | req r =>
        rw [pollReply_req s wid r h]
        show (((s.workers.set wid _)[wid]?).getD Worker.init).rpc = none
        rw [getD_set_self _ _ _ _ hlt]

lemma inv_pollIter (s : SMState) (i : Nat) (hI : Inv s) :
    Inv (pollIter s i) := by
  rcases hbt : s.busyThreads[i]? with _ | wid
  · rw [pollIter_oob s i hbt]
    exact hI
  · obtain ⟨hilt, hie⟩ := List.getElem?_eq_some.mp hbt
    have hbusy : wid ∈ s.busyThreads := hie ▸ List.getElem_mem hilt
    by_cases h1 : (wget s wid).state = WState.WORKING
    · rw [pollIter_working s i wid hbt h1]
      exact hI
    · by_cases h2 : (wget s wid).state = WState.POSTPROCESSING
      · rw [pollIter_post s i wid hbt h2]
        exact inv_pollReply s wid hI hbusy
      · rw [pollIter_active s i wid hbt h1 h2]
        refine inv_pollFinish (pollReply s wid) wid
          (inv_pollReply s wid hI hbusy) ?_ ?_
        · rw [pollReply_busyThreads]
          exact hbusy
        · exact pollReply_slot s wid (hI.busyLt wid hbusy)

lemma inv_pollLoop (s : SMState) (n : Nat) (hI : Inv s) :
    Inv (pollLoop s n) := by
  induction n generalizing s with
  | zero => exact hI
  | succ k ih => exact ih (pollIter s k) (inv_pollIter s k hI)

lemma inv_poll (s : SMState) (hI : Inv s) : Inv (poll s) :=
  inv_pollLoop s s.busyThreads.length hI

lemma inv_step (s s' : SMState) (h : Step s s') (hI : Inv s) : Inv s' := by
  cases h with
  | addSvc maxThreads tag s' h2 => exact inv_addService s maxThreads tag s' h2 hI
  | handle rpc hEpoch hFresh => exact inv_handleRpc s rpc hI hFresh
  | pollTick => exact inv_poll s hI
  | workerStep wid t ht => exact inv_setWorkerState s wid t hI

/-- Every reachable dispatcher state satisfies the global invariant. -/
lemma inv_reachable (s : SMState) (h : Reachable s) : Inv s := by
  obtain ⟨b, h2⟩ := h
  induction h2 with
  | refl => exact inv_initState b
  | tail h3 h4 ih => exact inv_step _ _ h4 ih

/-! ### The specification's description of `poll` agrees with the code -/

lemma pollReplySpec_eq (s : SMState) (wid : Nat) :
    pollReplySpec s wid = pollReply s wid := by
  rcases h : (wget s wid).rpc with _ | item
  · simp [pollReplySpec, pollReply, h]
  · cases item with
    | workerExit => simp [pollReplySpec, pollReply, h]
    | req r => simp [pollReplySpec, pollReply, h]

lemma pollReply_busyIndex (s : SMState) (wid : Nat)
    (hlt : wid < s.workers.length) :
    (wget (pollReply s wid) wid).busyIndex = (wget s wid).busyIndex := by
  rcases h : (wget s wid).rpc with _ | item
  · rw [pollReply_none s wid h]
  · cases item with
    | workerExit =>
        rw [pollReply_sentinel s wid h]
        show (((s.workers.set wid _)[wid]?).getD Worker.init).busyIndex = _
        rw [getD_set_self _ _ _ _ hlt]
    | req r =>
        rw [pollReply_req s wid r h]
        show (((s.workers.set wid _)[wid]?).getD Worker.init).busyIndex = _
        rw [getD_set_self _ _ _ _ hlt]

lemma pollFinish_eq_spec (s : SMState) (wid i : Nat)
    (hbt : s.busyThreads[i]? = some wid)
    (hbi : (wget s wid).busyIndex = Int.ofNat i) :
    pollFinish s wid = pollFinishSpec s wid i := by
  obtain ⟨hilt, hie⟩ := List.getElem?_eq_some.mp hbt
  cases htag : (wget s wid).serviceInfo with
  | none => simp [pollFinish, pollFinishSpec, htag]
  | some tag =>
    cases hs : sget s tag with
    | none => simp [pollFinish, pollFinishSpec, htag, hs]
    | some info =>
      cases hq : info.waitingRpcs with
      | cons r rest => simp [pollFinish, pollFinishSpec, htag, hs, hq]
      | nil =>
        by_cases hback : wid = s.busyThreads.getLastD 0
        · rw [pollFinish_release_last s wid tag info htag hs hq hback]
          have hset : s.busyThreads.set i wid = s.busyThreads := by
            conv_lhs => rw [← hie]
            exact set_getElem_self _ _ hilt
          simp only [pollFinishSpec, htag, hs, hq]
          rw [← hback, hset, List.set_set]
        · rw [pollFinish_release_swap s wid tag info htag hs hq hback]
          simp [pollFinishSpec, htag, hs, hq, hbi]

lemma pollIter_eq_spec (s : SMState) (i : Nat) (hI : Inv s) :
    pollIter s i = pollIterSpec s i := by
  rcases hbt : s.busyThreads[i]? with _ | wid
  · simp [pollIter, pollIterSpec, hbt]
  · obtain ⟨hilt, hie⟩ := List.getElem?_eq_some.mp hbt
    have hbusy : wid ∈ s.busyThreads := hie ▸ List.getElem_mem hilt
    have hbi : (wget s wid).busyIndex = Int.ofNat i := by
      have h := hI.busyIdx i hilt
      rwa [hie] at h
    by_cases h1 : (wget s wid).state = WState.WORKING
    · simp [pollIter, pollIterSpec, hbt, h1]
    · by_cases h2 : (wget s wid).state = WState.POSTPROCESSING
      · rw [pollIter_post s i wid hbt h2]
        simp [pollIterSpec, hbt, h1, h2, pollReplySpec_eq]
      · rw [pollIter_active s i wid hbt h1 h2]
        have hspec : pollIterSpec s i =
            pollFinishSpec (pollReply s wid) wid i := by
          simp [pollIterSpec, hbt, h1, h2, pollReplySpec_eq]
        rw [hspec]
        refine pollFinish_eq_spec (pollReply s wid) wid i ?_ ?_
        · rw [pollReply_busyThreads]
          exact hbt
        · rw [pollReply_busyIndex s wid (hI.busyLt wid hbusy)]
          exact hbi

lemma pollLoop_eq_spec (s : SMState) (n : Nat) (hI : Inv s) :
    pollLoop s n = pollLoopSpec s n := by
  induction n generalizing s with
  | zero => rfl
  | succ k ih =>
      show pollLoop (pollIter s k) k = pollLoopSpec (pollIterSpec s k) k
      rw [← pollIter_eq_spec s k hI]
      exact ih (pollIter s k) (inv_pollIter s k hI)

/-! ### Claim theorems -/

/-- A small reachable state used to witness the claim theorems: the fresh
dispatcher after registering one service (`maxThreads = 1`) under tag 2. -/
def sReg : SMState :=
  { initState false with
      services := (List.replicate (MAX_SERVICE + 1) none).set 2
        (some { maxThreads := 1, requestsRunning := 0, waitingRpcs := [] })
      serviceCount := 1 }

/-- A one-worker state used to witness the `Worker::exit` claim. -/
def sW10 : SMState :=
  { initState false with workers := [Worker.init] }

/-- A well-formed concrete request addressed to the registered service. -/
def rpc7 : ServerRpc :=
  { reqId := 7, payloadLength := 8, service := 2, opcode := 1
    epochSet := true }

/-- A one-byte request: too short to carry an RPC header. -/
def rpc8 : ServerRpc :=
  { reqId := 8, payloadLength := 1, service := 0, opcode := 0
    epochSet := true }

lemma reachable_sReg : Reachable sReg :=
  ⟨false, Relation.ReflTransGen.tail Relation.ReflTransGen.refl
    (Step.addSvc (initState false) 1 2 sReg (by decide))⟩

/-- C4: for every registered service, in every reachable state,
`requestsRunning` never exceeds `maxThreads`, equals the number of busy
workers bound to the service, and the waiting queue is non-empty only when
the service is saturated. -/
theorem handleRpc_poll_service_invariants (s : SMState) (hr : Reachable s)
    (tag : Nat) (info : ServiceInfo) (hs : sget s tag = some info) :
    0 ≤ info.requestsRunning ∧
    info.requestsRunning ≤ info.maxThreads ∧
    info.requestsRunning = boundCount s.busyThreads s.workers tag ∧
    (info.waitingRpcs ≠ [] →
      info.requestsRunning = info.maxThreads) := by
  have hI := inv_reachable s hr
  exact ⟨Nat.zero_le _, hI.capped tag info hs, hI.counts tag info hs,
    hI.queueFull tag info hs⟩

/-- Witness for C4 at a concrete reachable state. -/
theorem handleRpc_poll_service_invariants_witness :
    0 ≤ (0 : Nat) ∧ (0 : Nat) ≤ 1 ∧
    (0 : Nat) = boundCount sReg.busyThreads sReg.workers 2 ∧
    (({ maxThreads := 1, requestsRunning := 0,
        waitingRpcs := [] } : ServiceInfo).waitingRpcs ≠ [] →
      (0 : Nat) = 1) :=
  handleRpc_poll_service_invariants sReg reachable_sReg 2
    { maxThreads := 1, requestsRunning := 0, waitingRpcs := [] } (by decide)

/-- C9: in every reachable state, a worker's `busyIndex` is non-negative
exactly when the worker sits in `busyThreads`, in which case
`busyThreads[busyIndex]` is that very worker; a worker in `idleThreads`
always has `busyIndex = -1`. -/
theorem busyIndex_position_invariant (s : SMState) (hr : Reachable s)
    (wid : Nat) :
    (0 ≤ (wget s wid).busyIndex ↔ wid ∈ s.busyThreads) ∧
    (0 ≤ (wget s wid).busyIndex →
      s.busyThreads[(wget s wid).busyIndex.toNat]? = some wid) ∧
    (wid ∈ s.idleThreads → (wget s wid).busyIndex = -1) := by
  have hI := inv_reachable s hr
  have hFwd : wid ∈ s.busyThreads →
      0 ≤ (wget s wid).busyIndex ∧
      s.busyThreads[(wget s wid).busyIndex.toNat]? = some wid := by
    intro hmem
    obtain ⟨i, hilt, hie⟩ := List.mem_iff_getElem.mp hmem
    have hbi : (wget s wid).busyIndex = Int.ofNat i := by
      rw [← hie]
      exact hI.busyIdx i hilt
    constructor
    · rw [hbi]
      exact Int.ofNat_nonneg i
    · rw [hbi]
      show s.busyThreads[i]? = some wid
      rw [List.getElem?_eq_getElem hilt, hie]
  refine ⟨⟨?_, fun hmem => (hFwd hmem).1⟩, ?_, ?_⟩
  · intro hge
    by_contra hmem
    have := hI.notBusyIdx wid hmem
    omega
  · intro hge
    have hmem : wid ∈ s.busyThreads := by
      by_contra hmem
      have := hI.notBusyIdx wid hmem
      omega
    exact (hFwd hmem).2
  · intro hidle
    apply hI.notBusyIdx
    intro hmem
    exact hI.disj wid hmem hidle

/-- Witness for C9 at a concrete reachable state. -/
theorem busyIndex_position_invariant_witness :
    (0 ≤ (wget sReg 0).busyIndex ↔ 0 ∈ sReg.busyThreads) ∧
    (0 ≤ (wget sReg 0).busyIndex →
      sReg.busyThreads[(wget sReg 0).busyIndex.toNat]? = some 0) ∧
    (0 ∈ sReg.idleThreads → (wget sReg 0).busyIndex = -1) :=
  busyIndex_position_invariant sReg reachable_sReg 0

/-- C6: in every reachable state, per service, the ids handed off to
workers followed by the ids still waiting in the queue are exactly the ids
admitted, in admission order; hence handoffs happen in admission (FIFO)
order. -/
theorem per_service_fifo_order (s : SMState) (hr : Reachable s)
    (tag : Nat) :
    logFor s.handoffLog tag ++ queueIds s.services tag =
      logFor s.admitLog tag ∧
    ∃ rest, logFor s.handoffLog tag ++ rest = logFor s.admitLog tag := by
  have hI := inv_reachable s hr
  exact ⟨hI.fifo tag, queueIds s.services tag, hI.fifo tag⟩

/-- Witness for C6 at a concrete reachable state. -/
theorem per_service_fifo_order_witness :
    (logFor sReg.handoffLog 2 ++ queueIds sReg.services 2 =
      logFor sReg.admitLog 2 ∧
    ∃ rest, logFor sReg.handoffLog 2 ++ rest = logFor sReg.admitLog 2) :=
  per_service_fifo_order sReg reachable_sReg 2

/-- C7: in every reachable state, `sendReply` has been invoked at most once
per request; and once an admitted request has left the waiting queues and
the worker slots, it has received exactly one `sendReply`. -/
theorem sendReply_exactly_once (s : SMState) (hr : Reachable s) :
    (∀ id, replyCount s.replyLog id ≤ 1) ∧
    (∀ p ∈ s.admitLog, queuesCount s.services p.2 = 0 →
      slotsCount s.workers p.2 = 0 → replyCount s.replyLog p.2 = 1) := by
  have hI := inv_reachable s hr
  constructor
  · intro id
    have h1 := hI.own id
    simp only [occ, liveOcc] at h1
    omega
  · intro p hp hq hsl
    have h1 := hI.own p.2
    have h2 := hI.admitLive p hp
    simp only [occ, liveOcc] at h1 h2
    omega

/-- Witness for C7 at a concrete reachable state. -/
theorem sendReply_exactly_once_witness :
    (∀ id, replyCount sReg.replyLog id ≤ 1) ∧
    (∀ p ∈ sReg.admitLog, queuesCount sReg.services p.2 = 0 →
      slotsCount sReg.workers p.2 = 0 →
      replyCount sReg.replyLog p.2 = 1) :=
  sendReply_exactly_once sReg reachable_sReg

/-- C5: every `Worker::handoff` performs, in order, the plain store of the
request, a release fence, and the exchange of the state cell to `WORKING`
observing the previous value, followed by exactly one `futexWake` with wake
count 1 if and only if the observed previous value was `SLEEPING`; the
worker ends with the request in its slot and its state cell at `WORKING`. -/
theorem handoff_event_order (w : Worker) (item : WorkItem) :
    (Worker.handoff w item).2 =
      [HEvent.storeRpc item, HEvent.fenceLeave, HEvent.exchangeState w.state]
        ++ (if w.state = WState.SLEEPING then [HEvent.futexWake 1]
            else []) ∧
    (Worker.handoff w item).1 =
      { w with rpc := some item, state := WState.WORKING } ∧
    (∀ c, HEvent.futexWake c ∈ (Worker.handoff w item).2 → c = 1) ∧
    ((Worker.handoff w item).2.count (HEvent.futexWake 1) =
      if w.state = WState.SLEEPING then 1 else 0) := by
  refine ⟨rfl, rfl, ?_, ?_⟩
  · intro c hc
    simp only [Worker.handoff, List.mem_append] at hc
    rcases hc with hc | hc
    · simp at hc
    · by_cases hst : w.state = WState.SLEEPING
      · rw [if_pos hst] at hc
        simpa using hc
      · rw [if_neg hst] at hc
        simp at hc
  · by_cases hst : w.state = WState.SLEEPING
    · simp [Worker.handoff, hst]
    · simp [Worker.handoff, hst, List.count_eq_zero]

/-- C8: `addService` fails when the slot is occupied or the tag is out of
range, and on success registers the service and bumps the service count. -/
theorem addService_register (s : SMState) (mt tag : Nat)
    (hr : Reachable s) :
    ((sget s tag).isSome → addService s mt tag = none) ∧
    (MAX_SERVICE < tag → addService s mt tag = none) ∧
    (tag ≤ MAX_SERVICE → sget s tag = none →
      ∃ s', addService s mt tag = some s' ∧
        sget s' tag = some { maxThreads := mt, requestsRunning := 0,
                             waitingRpcs := [] } ∧
        s'.serviceCount = s.serviceCount + 1 ∧
        s'.busyThreads = s.busyThreads ∧ s'.workers = s.workers) := by
  have hI := inv_reachable s hr
  refine ⟨?_, ?_, ?_⟩
  · intro hocc
    unfold addService
    rcases h2 : sget s tag with _ | info
    · rw [h2] at hocc
      simp at hocc
    · split
      · rfl
      · rfl
  · intro hgt
    unfold addService
    rw [if_neg (by omega)]
  · intro hle hnone
    refine ⟨{ s with
        services := s.services.set tag
          (some { maxThreads := mt, requestsRunning := 0,
                  waitingRpcs := [] })
        serviceCount := s.serviceCount + 1 }, ?_, ?_, rfl, rfl, rfl⟩
    · unfold addService
      rw [if_pos hle, hnone]
    · have hlt : tag < s.services.length := by rw [hI.svcLen]; omega
      exact getD_set_self _ _ _ _ hlt

/-- Witness for C8 on the fresh dispatcher. -/
theorem addService_register_witness :
    ((sget (initState false) 2).isSome →
      addService (initState false) 1 2 = none) ∧
    (MAX_SERVICE < 2 → addService (initState false) 1 2 = none) ∧
    (2 ≤ MAX_SERVICE → sget (initState false) 2 = none →
      ∃ s', addService (initState false) 1 2 = some s' ∧
        sget s' 2 = some { maxThreads := 1, requestsRunning := 0,
                           waitingRpcs := [] } ∧
        s'.serviceCount = (initState false).serviceCount + 1 ∧
        s'.busyThreads = (initState false).busyThreads ∧
        s'.workers = (initState false).workers) :=
  addService_register (initState false) 1 2
    ⟨false, Relation.ReflTransGen.refl⟩

/-- C10: `Worker::exit` is idempotent: a second call on an exited worker
returns immediately with no state change (no handoff, no log growth), so
two calls are observably one; the first call (after its wait loop, i.e.
with `busyIndex < 0`) hands off the exit sentinel, joins, clears the
request pointer and sets the `exited` flag. -/
theorem worker_exit_idempotent (s : SMState) (wid : Nat) :
    ((wget s wid).exited = true → workerExitOp s wid = s) ∧
    (wid < s.workers.length →
      workerExitOp (workerExitOp s wid) wid = workerExitOp s wid) ∧
    ((wget s wid).exited = false →
      workerExitOp s wid = { s with
        workers := s.workers.set wid
          { wget s wid with rpc := none, state := WState.WORKING,
                            exited := true } }) := by
  have hFirst : (wget s wid).exited = false →
      workerExitOp s wid = { s with
        workers := s.workers.set wid
          { wget s wid with rpc := none, state := WState.WORKING,
                            exited := true } } := by
    intro hex
    by_cases hlt : wid < s.workers.length
    · simp only [workerExitOp, hex, Bool.false_eq_true, if_false,
        smHandoff, Worker.handoff]
      simp [List.set_set, wget, getD_set_self _ _ _ _ hlt]
    · have hoob : s.workers.length ≤ wid := Nat.le_of_not_lt hlt
      simp only [workerExitOp, hex, Bool.false_eq_true, if_false,
        smHandoff, Worker.handoff]
      simp [List.set_eq_of_length_le hoob]
  refine ⟨?_, ?_, hFirst⟩
  · intro hex
    simp [workerExitOp, hex]
  · intro hlt
    by_cases hex : (wget s wid).exited = true
    · simp [workerExitOp, hex]
    · have hex2 : (wget s wid).exited = false := by
        simpa using hex
      rw [hFirst hex2]
      have hex3 : (wget { s with
          workers := s.workers.set wid
            { wget s wid with rpc := none, state := WState.WORKING,
                              exited := true } } wid).exited = true := by
        show (((s.workers.set wid _)[wid]?).getD Worker.init).exited = true
        rw [getD_set_self _ _ _ _ hlt]
      simp [workerExitOp, hex3]

/-- Witness for C10 on a concrete worker. -/
theorem worker_exit_idempotent_witness :
    (0 : Nat) < (sW10.workers.length) ∧
    workerExitOp (workerExitOp sW10 0) 0 = workerExitOp sW10 0 :=
  ⟨by decide, (worker_exit_idempotent sW10 0).2.1 (by decide)⟩

/-- C1: `handleRpc` on a well-formed request for a registered service
either queues the request (service at its concurrency cap: FIFO append,
nothing else changes except the ghost admission log) or admits it
(increment `requestsRunning`, pop the back of `idleThreads` — or construct
a fresh worker when none is idle — bind it to the service, hand off the
request, set its `busyIndex` to the previous length of `busyThreads` and
append it to `busyThreads`). -/
theorem handleRpc_admission (s : SMState) (rpc : ServerRpc)
    (hd : RpcRequestCommon) (info : ServiceInfo) (hr : Reachable s)
    (hh : getStart rpc = some hd) (hle : hd.service ≤ MAX_SERVICE)
    (hs : sget s hd.service = some info) :
    (info.maxThreads ≤ info.requestsRunning →
      handleRpc s rpc =
        { s with
            services := s.services.set hd.service
              (some { info with waitingRpcs := info.waitingRpcs ++ [rpc] })
            admitLog := s.admitLog ++ [(hd.service, rpc.reqId)] }) ∧
    (info.requestsRunning < info.maxThreads → s.idleThreads = [] →
      handleRpc s rpc =
        { s with
            services := s.services.set hd.service
              (some { info with
                        requestsRunning := info.requestsRunning + 1 })
            admitLog := s.admitLog ++ [(hd.service, rpc.reqId)]
            workers := s.workers ++
              [{ rpc := some (WorkItem.req rpc)
                 serviceInfo := some hd.service
                 busyIndex := Int.ofNat s.busyThreads.length
                 state := WState.WORKING, exited := false }]
            handoffLog := s.handoffLog ++ [(hd.service, rpc.reqId)]
            busyThreads := s.busyThreads ++ [s.workers.length] }) ∧
    (info.requestsRunning < info.maxThreads → s.idleThreads ≠ [] →
      handleRpc s rpc =
        { s with
            services := s.services.set hd.service
              (some { info with
                        requestsRunning := info.requestsRunning + 1 })
            admitLog := s.admitLog ++ [(hd.service, rpc.reqId)]
            idleThreads := s.idleThreads.dropLast
            workers := s.workers.set (s.idleThreads.getLastD 0)
              { wget s (s.idleThreads.getLastD 0) with
                  serviceInfo := some hd.service
                  rpc := some (WorkItem.req rpc)
                  state := WState.WORKING
                  busyIndex := Int.ofNat s.busyThreads.length }
            handoffLog := s.handoffLog ++ [(hd.service, rpc.reqId)]
            busyThreads := s.busyThreads ++
              [s.idleThreads.getLastD 0] }) := by
  refine ⟨?_, ?_, ?_⟩
  · intro hcap
    exact handleRpc_queue s rpc hd info hh hle hs hcap
  · intro hcap hidle
    exact handleRpc_admit_new s rpc hd info hh hle hs hcap hidle
  · intro hcap hidle
    have hI := inv_reachable s hr
    have hlt2 : s.idleThreads.getLastD 0 < s.workers.length :=
      hI.idleLt _ (getLastD_mem _ _ hidle)
    exact handleRpc_admit_pop s rpc hd info hh hle hs hcap hidle hlt2

/-- Witness for C1: admit a concrete request on the one-service state. -/
theorem handleRpc_admission_witness :
    ((⟨1, 0, []⟩ : ServiceInfo).maxThreads ≤
        (⟨1, 0, []⟩ : ServiceInfo).requestsRunning →
      handleRpc sReg rpc7 =
        { sReg with
            services := sReg.services.set 2
              (some (⟨1, 0, [rpc7]⟩ : ServiceInfo))
            admitLog := sReg.admitLog ++ [(2, rpc7.reqId)] }) ∧
    ((⟨1, 0, []⟩ : ServiceInfo).requestsRunning <
        (⟨1, 0, []⟩ : ServiceInfo).maxThreads → sReg.idleThreads = [] →
      handleRpc sReg rpc7 =
        { sReg with
            services := sReg.services.set 2
              (some (⟨1, 1, []⟩ : ServiceInfo))
            admitLog := sReg.admitLog ++ [(2, rpc7.reqId)]
            workers := sReg.workers ++
              [{ rpc := some (WorkItem.req rpc7)
                 serviceInfo := some 2
                 busyIndex := Int.ofNat sReg.busyThreads.length
                 state := WState.WORKING, exited := false }]
            handoffLog := sReg.handoffLog ++ [(2, rpc7.reqId)]
            busyThreads := sReg.busyThreads ++ [sReg.workers.length] }) ∧
    ((⟨1, 0, []⟩ : ServiceInfo).requestsRunning <
        (⟨1, 0, []⟩ : ServiceInfo).maxThreads → sReg.idleThreads ≠ [] →
      handleRpc sReg rpc7 =
        { sReg with
            services := sReg.services.set 2
              (some (⟨1, 1, []⟩ : ServiceInfo))
            admitLog := sReg.admitLog ++ [(2, rpc7.reqId)]
            idleThreads := sReg.idleThreads.dropLast
            workers := sReg.workers.set (sReg.idleThreads.getLastD 0)
              { wget sReg (sReg.idleThreads.getLastD 0) with
                  serviceInfo := some 2
                  rpc := some (WorkItem.req rpc7)
                  state := WState.WORKING
                  busyIndex := Int.ofNat sReg.busyThreads.length }
            handoffLog := sReg.handoffLog ++ [(2, rpc7.reqId)]
            busyThreads := sReg.busyThreads ++
              [sReg.idleThreads.getLastD 0] }) :=
  handleRpc_admission sReg rpc7 ⟨2, 1⟩ ⟨1, 0, []⟩
    reachable_sReg (by decide) (by decide) (by decide)

/-- C2: a request with a missing header gets a synchronous
`STATUS_MESSAGE_TOO_SHORT` reply, a request with an out-of-range or
unregistered tag gets a synchronous `STATUS_SERVICE_NOT_AVAILABLE` reply,
and in a `TESTING` build with no registered services an unroutable request
is pushed onto the test queue instead; in all three cases no handler is
reached (no admission, no handoff, no worker or queue change). -/
theorem handleRpc_error_replies (s : SMState) (rpc : ServerRpc) :
    (getStart rpc = none → (s.testing = false ∨ s.serviceCount ≠ 0) →
      handleRpc s rpc =
        { s with replyLog := s.replyLog ++
            [(rpc.reqId, some Status.STATUS_MESSAGE_TOO_SHORT)] }) ∧
    (∀ hd, getStart rpc = some hd →
      (MAX_SERVICE < hd.service ∨ sget s hd.service = none) →
      (s.testing = false ∨ s.serviceCount ≠ 0) →
      handleRpc s rpc =
        { s with replyLog := s.replyLog ++
            [(rpc.reqId, some Status.STATUS_SERVICE_NOT_AVAILABLE)] }) ∧
    (Unroutable s rpc → s.testing = true → s.serviceCount = 0 →
      handleRpc s rpc = { s with testRpcs := s.testRpcs ++ [rpc] }) := by
  refine ⟨?_, ?_, ?_⟩
  · intro hh ht
    exact handleRpc_tooShort s rpc hh ht
  · intro hd hh hbad ht
    exact handleRpc_notAvail s rpc hd hh hbad ht
  · intro hu ht hc
    exact handleRpc_test s rpc hu ht hc

/-- Witness for C2: a one-byte request and a bad-tag request on the
one-service state, and an unroutable request on the fresh testing
dispatcher. -/
theorem handleRpc_error_replies_witness :
    handleRpc sReg rpc8 =
      { sReg with replyLog := sReg.replyLog ++
          [(rpc8.reqId, some Status.STATUS_MESSAGE_TOO_SHORT)] } :=
  (handleRpc_error_replies sReg rpc8).1 (by decide) (Or.inr (by decide))

/-- C3: on every reachable state, `poll` behaves exactly as the
specification describes it: it sweeps `busyThreads` in reverse index
order and, for each visited worker, skips it unchanged while `WORKING`,
otherwise replies to and clears any pending request, keeps a
`POSTPROCESSING` worker in `busyThreads`, and otherwise either hands the
head of its service's waiting queue to the same worker (staying busy) or
removes it by swapping the last `busyThreads` entry into the visited
slot (updating the moved worker's `busyIndex`), sets its `busyIndex` to
`-1`, appends it to `idleThreads` and decrements the service's
`requestsRunning`. -/
theorem poll_reverse_sweep (s : SMState) (hr : Reachable s) :
    poll s = pollSpec s :=
  pollLoop_eq_spec s s.busyThreads.length (inv_reachable s hr)

/-- Witness for C3: the swept states agree on the one-service state. -/
theorem poll_reverse_sweep_witness : poll sReg = pollSpec sReg :=
  poll_reverse_sweep sReg reachable_sReg

end RAMCloud
